/-
Verification development for the PayMCP payment middleware (Python).

This file gives a shallow embedding, in Lean 4, of the parts of the code
base that the specification claims talk about:

  * `src/paymcp/state_store.py`   — the in-process state store `InMemoryStore`
    (primary map, payment-id index, lazy TTL expiry, opportunistic cleanup);
  * `src/paymcp/utils/state.py`   — the state helpers `check_existing_payment`,
    `save_payment_state`, `update_payment_status`, `cleanup_payment_state`;
  * `src/paymcp/utils/context.py` — `extract_session_id`;
  * `src/paymcp/utils/flow.py`    — `is_client_aborted`;
  * `src/paymcp/utils/response.py`— the response builders;
  * `src/paymcp/utils/elicitation.py` — `run_elicitation_loop`;
  * `src/paymcp/payment/flows/two_step.py` and `progress.py` — the two-step
    confirm tool and the progress polling wrapper.

Conventions of the embedding:

  * Python dicts keyed by strings are association lists `List (String × α)`
    with the dedicated lookup/insert/erase operations below.  Insertion
    removes every earlier binding of the key, so a key is bound at most once
    in any list produced by the operations.
  * Wall-clock time (`time.time()`) is an explicit `Nat` parameter `now`;
    every call a Python function makes to `time.time()` during one operation
    is modelled by that one parameter (the calls happen microseconds apart).
  * Python `None`-or-string arguments are `Option String`; Python truthiness
    of such a value (`if x:`) is `truthy` below (absent or empty is falsy).
  * External effectful collaborators are oracles: a payment provider is a
    function from (time, payment id) to `Except`, where `Except.error`
    models a raised exception; the client's `elicit` capability is a
    function from the attempt number to an `ElicitOutcome`.
  * Exceptions raised by the Python code itself are `Except.error msg` or an
    explicit `raised msg` outcome, carrying the message of the `RuntimeError`.
-/
import Mathlib

namespace PayMCP

/-! ### Association-list primitives (Python `dict` with string keys) -/

/-- Lookup in an association list; `none` models a missing key. -/
def alookup {α : Type} (l : List (String × α)) (k : String) : Option α :=
  match l with
  | [] => none
  | (k2, v) :: rest => if k2 = k then some v else alookup rest k

/-- Remove every binding of `k` (Python `del d[k]`, keys are unique). -/
def aerase {α : Type} (l : List (String × α)) (k : String) : List (String × α) :=
  match l with
  | [] => []
  | (k2, v) :: rest => if k2 = k then aerase rest k else (k2, v) :: aerase rest k

/-- Python `d[k] = v`: bind `k` to `v`, dropping any earlier binding. -/
def ainsert {α : Type} (l : List (String × α)) (k : String) (v : α) :
    List (String × α) :=
  aerase l k ++ [(k, v)]

/-- Python truthiness of an optional string (`if x:`). -/
def truthy (o : Option String) : Bool :=
  match o with
  | some s => s ≠ ""
  | none => false

/-! ### The persisted payment state (`state_store.py`, `PaymentState`)

The Python state is a dict.  Its fixed fields become record fields; the
dynamically named debug fields `status_<s>_at` written by
`update_payment_status` become the association list `statusAt` keyed by `<s>`.
`timestamp` models the `_timestamp` field (the TTL anchor written by `put`);
optional string fields use `""` for an absent/`None` value exactly where the
Python code tests them only for truthiness. -/

/-- Tool keyword arguments (`tool_args`): an opaque string-keyed dict. -/
abbrev Args := List (String × String)

structure PaymentState where
  session_id : String
  payment_id : String
  payment_url : String
  tool_name : String
  tool_args : Args
  status : String
  created_at : Nat
  /-- the dynamic `status_<s>_at` debug fields, keyed by `<s>` -/
  statusAt : List (String × Nat) := []
  /-- the `_timestamp` TTL anchor; always overwritten by `put` -/
  timestamp : Nat := 0
deriving Repr, DecidableEq

/-! ### `InMemoryStore` (`state_store.py`) -/

/-- `InMemoryStore._cleanup_interval` (300 s, set in `__init__`). -/
def cleanupInterval : Nat := 300

structure InMemoryStore where
  /-- primary storage: session id → payment state -/
  store : List (String × PaymentState)
  /-- secondary index: payment id → session id -/
  payment_index : List (String × String)
  ttl_seconds : Nat
  /-- `_last_cleanup` -/
  last_cleanup : Nat
deriving Repr, DecidableEq

namespace InMemoryStore

/-- `InMemoryStore.__init__(ttl_seconds)` at wall-clock time `now`. -/
def init (ttl : Nat) (now : Nat) : InMemoryStore :=
  { store := [], payment_index := [], ttl_seconds := ttl, last_cleanup := now }

/-- `InMemoryStore()` with the default `ttl_seconds` parameter (3600 in the
source: `def __init__(self, ttl_seconds: int = 3600)`), as constructed by
`PayMCP.__init__` when no store is supplied. -/
def initDefault (now : Nat) : InMemoryStore := init 3600 now

/-- `InMemoryStore._delete_with_index(key)`. -/
def deleteWithIndex (s : InMemoryStore) (key : String) : InMemoryStore :=
  match alookup s.store key with
  | none => s
  | some v =>
    let idx :=
      if v.payment_id ≠ "" ∧ (alookup s.payment_index v.payment_id).isSome then
        aerase s.payment_index v.payment_id
      else s.payment_index
    { s with store := aerase s.store key, payment_index := idx }

/-- `InMemoryStore._cleanup_if_needed()` at wall-clock time `now`. -/
def cleanupIfNeeded (now : Nat) (s : InMemoryStore) : InMemoryStore :=
  if now - s.last_cleanup < cleanupInterval then s
  else
    let expired :=
      (s.store.filter (fun kv => now - kv.2.timestamp > s.ttl_seconds)).map
        (fun kv => kv.1)
    expired.foldl deleteWithIndex { s with last_cleanup := now }

/-- `InMemoryStore.put(key, value)` at wall-clock time `now`. -/
def put (s : InMemoryStore) (now : Nat) (key : String) (value : PaymentState) :
    InMemoryStore :=
  let s1 := cleanupIfNeeded now s
  let value := { value with timestamp := now }
  let s2 :=
    if value.payment_id ≠ "" then
      let idx :=
        match alookup s1.store key with
        | some old =>
          if old.payment_id ≠ "" ∧
              (alookup s1.payment_index old.payment_id).isSome then
            aerase s1.payment_index old.payment_id
          else s1.payment_index
        | none => s1.payment_index
      { s1 with payment_index := ainsert idx value.payment_id key }
    else s1
  { s2 with store := ainsert s2.store key value }

/-- `InMemoryStore.get(key)` at wall-clock time `now`; returns the value (or
`none`) together with the mutated store (lazy expiry and cleanup). -/
def get (s : InMemoryStore) (now : Nat) (key : String) :
    Option PaymentState × InMemoryStore :=
  let s1 := cleanupIfNeeded now s
  match alookup s1.store key with
  | none => (none, s1)
  | some v =>
    if now - v.timestamp > s1.ttl_seconds then (none, deleteWithIndex s1 key)
    else (some v, s1)

/-- `InMemoryStore.get_by_payment_id(payment_id)` at wall-clock time `now`. -/
def getByPaymentId (s : InMemoryStore) (now : Nat) (pid : String) :
    Option PaymentState × InMemoryStore :=
  match alookup s.payment_index pid with
  | none => (none, s)
  | some key => s.get now key

/-- `InMemoryStore.delete(key)` (delegates to `_delete_with_index`). -/
def delete (s : InMemoryStore) (key : String) : InMemoryStore :=
  deleteWithIndex s key

end InMemoryStore

/-! ### Provider oracle

`provider.get_payment_status(payment_id)` is an external HTTP call: it is
modelled as an oracle indexed by wall-clock time and payment id.
`Except.error msg` models a raised exception. -/

abbrev Provider := Nat → String → Except String String

/-! ### State helpers (`utils/state.py`) -/

/-- The tuple returned by `check_existing_payment`. -/
structure CheckResult where
  payment_id : Option String
  payment_url : Option String
  stored_args : Option Args
  should_execute : Bool
deriving Repr, DecidableEq

/-- `check_existing_payment(session_id, state_store, provider, tool_name,
tool_args)` at wall-clock time `now`.  Returns the result tuple together with
the (possibly mutated) store.  `tool_args` is accepted but, as in the source,
never used. -/
def check_existing_payment (now : Nat) (session_id : Option String)
    (state_store : Option InMemoryStore) (provider : Provider)
    (tool_name : String) (tool_args : Args) :
    CheckResult × Option InMemoryStore :=
  match session_id, state_store with
  | some sid, some st =>
    if sid = "" then (⟨none, none, none, false⟩, some st)
    else
      match st.get now sid with
      | (none, st1) => (⟨none, none, none, false⟩, some st1)
      | (some state, st1) =>
        let pid := state.payment_id
        let url := state.payment_url
        let stored_args := state.tool_args
        let stored_func_name := state.tool_name
        match provider now pid with
        | Except.error _ =>
          -- provider communication failure: clean up and start over
          (⟨none, none, none, false⟩, some (st1.delete sid))
        | Except.ok status =>
          if status = "paid" then
            let st2 := st1.delete sid
            if stored_func_name = tool_name then
              (⟨some pid, some url, some stored_args, true⟩, some st2)
            else
              (⟨some pid, some url, none, true⟩, some st2)
          else if status = "pending" ∨ status = "processing" then
            (⟨some pid, some url, none, false⟩, some st1)
          else if status = "canceled" ∨ status = "expired" ∨ status = "failed" then
            (⟨none, none, none, false⟩, some (st1.delete sid))
          else
            -- unknown status: falls through to the final return of the source
            (⟨some pid, some url, none, false⟩, some st1)
  | _, _ => (⟨none, none, none, false⟩, state_store)

/-- `save_payment_state(session_id, state_store, payment_id, payment_url,
tool_name, tool_args, status)` at wall-clock time `now` (the dict it builds
carries `created_at = time.time()`; `put` then stamps `_timestamp`). -/
def save_payment_state (now : Nat) (session_id : Option String)
    (state_store : Option InMemoryStore) (payment_id payment_url tool_name : String)
    (tool_args : Args) (status : String) : Option InMemoryStore :=
  match session_id, state_store with
  | some sid, some st =>
    if sid = "" then some st
    else
      some (st.put now sid
        { session_id := sid, payment_id := payment_id, payment_url := payment_url,
          tool_name := tool_name, tool_args := tool_args, status := status,
          created_at := now })
  | _, _ => state_store

/-- `update_payment_status(session_id, state_store, status)` at time `now`:
read-modify-write; writes `status` and the debug field `status_<status>_at`
(the `statusAt` entry for `status`), then `put` refreshes `_timestamp`. -/
def update_payment_status (now : Nat) (session_id : Option String)
    (state_store : Option InMemoryStore) (status : String) :
    Option InMemoryStore :=
  match session_id, state_store with
  | some sid, some st =>
    if sid = "" then some st
    else
      match st.get now sid with
      | (some state, st1) =>
        let state2 := { state with
          status := status, statusAt := ainsert state.statusAt status now }
        some (st1.put now sid state2)
      | (none, st1) => some st1
  | _, _ => state_store

/-- `cleanup_payment_state(session_id, state_store)`: unconditional delete. -/
def cleanup_payment_state (session_id : Option String)
    (state_store : Option InMemoryStore) : Option InMemoryStore :=
  match session_id, state_store with
  | some sid, some st => if sid = "" then some st else some (st.delete sid)
  | _, _ => state_store

/-! ### Context adapter (`utils/context.py`, `utils/flow.py`)

A host-runtime context object is probed with `hasattr`; a field of value
`some v` models the attribute being present with string value `v`, `none`
models the absent attribute. -/

structure SessionObj where
  id : Option String := none
  session_id : Option String := none
deriving Repr, DecidableEq

structure Ctx where
  session_id : Option String := none
  session : Option SessionObj := none
  meta : Option (List (String × String)) := none
  request_id : Option String := none
  /-- `ctx.signal.aborted` when the signal attribute chain is present -/
  signal_aborted : Option Bool := none
deriving Repr, DecidableEq

/-- `extract_session_id(ctx)` (`utils/context.py`): probe `.session_id`,
then `.session.id`, then `.session.session_id`, then `.meta["session_id"]`,
and finally fall back to `req_<request_id>`. -/
def extract_session_id (ctx : Option Ctx) : Option String :=
  match ctx with
  | none => none
  | some c =>
    match c.session_id with
    | some sid => some sid
    | none =>
      match c.session with
      | some sess =>
        match sess.id with
        | some sid => some sid
        | none =>
          match sess.session_id with
          | some sid => some sid
          | none => extractFromMeta c
      | none => extractFromMeta c
where
  /-- approaches 3 and 4 of the source: the `meta` dict (only probed when it
  is a truthy dict) and the `req_<request_id>` fallback. -/
  extractFromMeta (c : Ctx) : Option String :=
    match c.meta with
    | some m =>
      if m ≠ [] then
        match alookup m "session_id" with
        | some sid => some sid
        | none => extractReq c
      else extractReq c
    | none => extractReq c
  /-- approach 4: fall back to `req_<request_id>`. -/
  extractReq (c : Ctx) : Option String :=
    match c.request_id with
    | some rid => some ("req_" ++ rid)
    | none => none

/-- The probe order of `extract_session_id` as the specification states it:
the first hit among `.session_id`, `.session.id`, `.session.session_id`,
`.meta["session_id"]`, and finally the `req_<request_id>` fallback.  (Stated
from the spec's words, to be compared with the embedding of the source.) -/
def extractSessionIdSpec (ctx : Option Ctx) : Option String :=
  match ctx with
  | none => none
  | some c =>
    (c.session_id).orElse (fun _ =>
    (c.session.bind SessionObj.id).orElse (fun _ =>
    (c.session.bind SessionObj.session_id).orElse (fun _ =>
    (c.meta.bind (fun m => alookup m "session_id")).orElse (fun _ =>
    c.request_id.map (fun r => "req_" ++ r)))))

/-- `is_client_aborted(ctx)` (`utils/flow.py`): `ctx.signal.aborted` when
present, `False` otherwise. -/
def is_client_aborted (ctx : Option Ctx) : Bool :=
  match ctx with
  | some c =>
    match c.signal_aborted with
    | some b => b
    | none => false
  | none => false

/-! ### Response builders (`utils/response.py`) -/

/-- The result of an underlying tool: either an already-structured dict or a
raw (non-dict) value. -/
inductive ToolResult where
  | dict (entries : List (String × String))
  | raw (value : String)
deriving Repr, DecidableEq

/-- The `structured_content` / `data` payload built for two-step flows. -/
structure StructuredContent where
  payment_url : String
  payment_id : Option String
  next_step : String
  status : String
  amount : Option Rat := none
  currency : Option String := none
deriving Repr, DecidableEq

/-- The response envelope dict built by `build_response`: optional fields
model keys that are present only when the corresponding argument is truthy. -/
structure Response where
  message : String
  status : String
  payment_id : Option String := none
  payment_url : Option String := none
  next_step : Option String := none
  reason : Option String := none
  raw : Option ToolResult := none
  structured_content : Option StructuredContent := none
  data : Option StructuredContent := none
deriving Repr, DecidableEq

/-- `build_response(message, status, payment_id, payment_url, next_step,
reason, raw_result, amount, currency)`. -/
def build_response (message : String) (status : String)
    (payment_id payment_url next_step reason : Option String)
    (raw_result : Option ToolResult) (amount : Option Rat)
    (currency : Option String) : Response :=
  let response : Response := {
    message := message, status := status,
    payment_id := if truthy payment_id then payment_id else none,
    payment_url := if truthy payment_url then payment_url else none,
    next_step := if truthy next_step then next_step else none,
    reason := if truthy reason then reason else none,
    raw := raw_result }
  if truthy next_step && truthy payment_url then
    let structured_data : StructuredContent := {
      payment_url := payment_url.getD "",
      payment_id := if truthy payment_id then payment_id else none,
      next_step := next_step.getD "",
      status := if status ≠ "pending" then "payment_" ++ status
                else "payment_required",
      amount := amount,
      currency := if truthy currency then currency else none }
    { response with structured_content := some structured_data,
                    data := some structured_data }
  else response

/-- `build_error_response(message, reason, payment_id, payment_url)`. -/
def build_error_response (message : String)
    (reason payment_id payment_url : Option String) : Response :=
  build_response message "error" payment_id payment_url none reason none
    none none

/-- `build_pending_response(message, payment_id, payment_url, next_step,
amount, currency)`. -/
def build_pending_response (message : String) (payment_id payment_url : String)
    (next_step : Option String) (amount : Option Rat)
    (currency : Option String) : Response :=
  build_response message "pending" (some payment_id) (some payment_url)
    next_step none none amount currency

/-- `build_canceled_response(message, payment_id, payment_url)`. -/
def build_canceled_response (message : String)
    (payment_id payment_url : Option String) : Response :=
  build_response message "canceled" payment_id payment_url none none none
    none none

/-- A value returned from a flow handler: either an envelope built by the
response builders, or (from `build_success_response` on a dict-shaped tool
result) the tool's own annotated dict. -/
inductive FlowValue where
  | envelope (r : Response)
  | enhancedDict (d : List (String × String))
deriving Repr, DecidableEq

/-- `build_success_response(tool_result, payment_id)`. -/
def build_success_response (tool_result : ToolResult)
    (payment_id : Option String) : FlowValue :=
  match tool_result with
  | ToolResult.dict d =>
    let d1 :=
      if truthy payment_id ∧ alookup d "payment_id" = none then
        d ++ [("payment_id", payment_id.getD "")]
      else d
    let d2 :=
      if alookup d1 "status" = none then d1 ++ [("status", "success")] else d1
    FlowValue.enhancedDict d2
  | ToolResult.raw v =>
    FlowValue.envelope
      (build_response "Tool completed after payment" "success" payment_id
        none none none (some (ToolResult.raw v)) none none)

/-- `format_two_step_message(message, payment_url, payment_id,
confirm_tool_name)` (`utils/response.py`). -/
structure TwoStepMessage where
  message : String
  payment_url : String
  payment_id : String
  next_step : String
deriving Repr, DecidableEq

def format_two_step_message (message payment_url payment_id
    confirm_tool_name : String) : TwoStepMessage :=
  { message := message, payment_url := payment_url, payment_id := payment_id,
    next_step := confirm_tool_name }

/-! ### Messages (`utils/messages.py`)

The Python functions interpolate a float amount; the embedding carries the
amount already rendered as a string. -/

def open_link_message (url amount currency : String) : String :=
  "To run this tool, please pay " ++ amount ++ " " ++ currency ++
  " using the link below:\n\n" ++ url ++
  "\n\nAfter completing the payment, come back and confirm."

def opened_webview_message (url amount currency : String) : String :=
  "To run this tool, please pay " ++ amount ++ " " ++ currency ++
  ".\nA payment window should be open. If not, you can use this link:\n\n" ++
  url ++ "\n\nAfter completing the payment, come back and confirm."

/-- `price_info` as read off the `@price` decorator; the amount is carried
already rendered as a string (it is only ever interpolated into messages). -/
structure PriceInfo where
  price : String
  currency : String
deriving Repr, DecidableEq

/-! ### Two-step flow (`payment/flows/two_step.py`)

`PENDING_ARGS` (the legacy module-level dict), the store and the list of
invocations of the wrapped tool form the mutable world of the flow.  The
wrapped tool itself is an oracle `Args → ToolResult`; `call_original_tool`
with an empty positional dict is plain application. -/

structure TwoStepWorld where
  state_store : Option InMemoryStore
  /-- the module-level legacy dict `PENDING_ARGS` -/
  pendingArgs : List (String × Args)
  /-- the arguments of every invocation of the wrapped tool, oldest first -/
  calls : List Args
deriving Repr, DecidableEq

/-- `call_original_tool(func, {}, kwargs)` (`utils/flow.py`): with no
positional arguments this is `func(**kwargs)`. -/
def call_original_tool (func : Args → ToolResult) (kwargs : Args) : ToolResult :=
  func kwargs

/-- `retrieve_stored_args(payment_id, state_store)` with the current
`PENDING_ARGS`; returns `(original_args, state_key)` plus the mutated
store. -/
def retrieve_stored_args (now : Nat) (payment_id : String)
    (state_store : Option InMemoryStore) (pendingArgs : List (String × Args)) :
    (Option Args × Option String) × Option InMemoryStore :=
  match state_store with
  | some st =>
    match st.getByPaymentId now payment_id with
    | (some state, st1) =>
      -- `state_key = state.get('session_id') or payment_id`
      let state_key := if state.session_id ≠ "" then state.session_id
                       else payment_id
      ((some state.tool_args, some state_key), some st1)
    | (none, st1) =>
      match st1.get now payment_id with
      | (some state, st2) => ((some state.tool_args, some payment_id), some st2)
      | (none, st2) => ((alookup pendingArgs payment_id, none), some st2)
  | none => ((alookup pendingArgs payment_id, none), none)

/-- `store_payment_args(session_id, payment_id, payment_url, tool_name,
kwargs, state_store)`: session-keyed storage through `save_payment_state`,
with the legacy `PENDING_ARGS` fallback when no store is configured. -/
def store_payment_args (now : Nat) (session_id : Option String)
    (payment_id payment_url tool_name : String) (kwargs : Args)
    (state_store : Option InMemoryStore) (pendingArgs : List (String × Args)) :
    Option InMemoryStore × List (String × Args) :=
  let store1 := save_payment_state now session_id state_store payment_id
    payment_url tool_name kwargs "requested"
  match state_store with
  | some _ => (store1, pendingArgs)
  | none => (store1, ainsert pendingArgs payment_id kwargs)

/-- `cleanup_payment_args(state_key, payment_id, state_store)`. -/
def cleanup_payment_args (state_key : Option String) (payment_id : String)
    (state_store : Option InMemoryStore) (pendingArgs : List (String × Args)) :
    Option InMemoryStore × List (String × Args) :=
  if truthy state_key ∧ state_store.isSome then
    (cleanup_payment_state state_key state_store, pendingArgs)
  else
    (state_store, aerase pendingArgs payment_id)

/-- The companion confirmation tool `_confirm_tool(payment_id)` registered by
`make_paid_wrapper` of the two-step flow, at wall-clock time `now`. -/
def twoStepConfirm (now : Nat) (payment_id : String) (provider : Provider)
    (func : Args → ToolResult) (w : TwoStepWorld) : FlowValue × TwoStepWorld :=
  let ((original_args, state_key), store1) :=
    retrieve_stored_args now payment_id w.state_store w.pendingArgs
  match original_args with
  | none =>
    (FlowValue.envelope (build_error_response "Unknown or expired payment_id"
        (some "invalid_payment_id") (some payment_id) none),
     { w with state_store := store1 })
  | some args =>
    match provider now payment_id with
    | Except.error e =>
      (FlowValue.envelope (build_error_response
          ("Failed to check payment status: " ++ e)
          (some "status_check_failed") (some payment_id) none),
       { w with state_store := store1 })
    | Except.ok status =>
      if status ≠ "paid" then
        (FlowValue.envelope (build_error_response
            ("Payment status is " ++ status ++ ", expected 'paid'")
            (some "payment_not_complete") (some payment_id) none),
         { w with state_store := store1 })
      else
        let result := call_original_tool func args
        let (store2, pending2) :=
          cleanup_payment_args state_key payment_id store1 w.pendingArgs
        (build_success_response result (some payment_id),
         { state_store := store2, pendingArgs := pending2,
           calls := w.calls ++ [args] })

/-- What `_initiate_wrapper` returns: on `should_execute` the bare result of
the original tool (not wrapped), otherwise a pending envelope. -/
inductive InitiateResult where
  | toolResult (r : ToolResult)
  | envelope (r : Response)
deriving Repr, DecidableEq

/-- `{**kwargs}` updated with `stored_args` (stored args win on collision). -/
def mergeArgs (kwargs stored_args : Args) : Args :=
  stored_args.foldl (fun acc p => ainsert acc p.1 p.2) kwargs

/-- `_initiate_wrapper(**kwargs)` of the two-step flow at wall-clock time
`now`.  `create_payment` is the pair returned by the provider's
`create_payment` (an external call); `webview` stands for
`open_payment_webview_if_available` (from `payment/webview.py`, a UI helper
outside the modelled core). -/
def twoStepInitiate (now : Nat) (ctx : Option Ctx) (kwargs : Args)
    (provider : Provider) (create_payment : String × String)
    (price_info : PriceInfo) (func_name : String) (func : Args → ToolResult)
    (webview : String → Bool) (w : TwoStepWorld) :
    InitiateResult × TwoStepWorld :=
  let confirm_tool_name := "confirm_" ++ func_name ++ "_payment"
  let session_id := extract_session_id ctx
  let (check, store1) := check_existing_payment now session_id w.state_store
    provider func_name kwargs
  let w1 := { w with state_store := store1 }
  if check.should_execute then
    -- `if stored_args:` — Python truthiness, an empty dict takes the else
    match check.stored_args with
    | some stored_args =>
      if stored_args ≠ [] then
        let merged := mergeArgs kwargs stored_args
        (InitiateResult.toolResult (call_original_tool func merged),
         { w1 with calls := w1.calls ++ [merged] })
      else
        (InitiateResult.toolResult (call_original_tool func kwargs),
         { w1 with calls := w1.calls ++ [kwargs] })
    | none =>
      (InitiateResult.toolResult (call_original_tool func kwargs),
       { w1 with calls := w1.calls ++ [kwargs] })
  else if truthy check.payment_id ∧ truthy check.payment_url then
    -- reuse the pending payment found by check_existing_payment
    let pid := check.payment_id.getD ""
    let url := check.payment_url.getD ""
    let message := if webview url then
        opened_webview_message url price_info.price price_info.currency
      else open_link_message url price_info.price price_info.currency
    let response_msg := format_two_step_message
      ("Payment still pending: " ++ message) url pid confirm_tool_name
    (InitiateResult.envelope (build_pending_response response_msg.message pid
        url (some confirm_tool_name) none none), w1)
  else
    -- create a new payment with the provider and persist the arguments
    let (pid, url) := create_payment
    let message := if webview url then
        opened_webview_message url price_info.price price_info.currency
      else open_link_message url price_info.price price_info.currency
    let (store2, pending2) := store_payment_args now session_id pid url
      func_name kwargs w1.state_store w1.pendingArgs
    let response_msg := format_two_step_message message url pid
      confirm_tool_name
    (InitiateResult.envelope (build_pending_response response_msg.message pid
        url (some confirm_tool_name) none none),
     { w1 with state_store := store2, pendingArgs := pending2 })

/-! ### Progress flow (`payment/flows/progress.py`)

The wrapper holds the call open: it sleeps `DEFAULT_POLL_SECONDS = 3` between
polls and gives up after `MAX_WAIT_SECONDS = 15 * 60 = 900`.  The `while
waited < MAX_WAIT_SECONDS` loop therefore performs exactly 300 polls; it is
embedded as structural recursion on the number of remaining polls, with
`waited` tracking elapsed seconds exactly as in the source (wall-clock time
during the loop is `t0 + waited`).  `ctx.report_progress` notifications do
not touch any modelled state and are omitted.  A `RuntimeError` raised by the
wrapper (the source raises on terminal non-paid status and on timeout) is the
`raised` outcome. -/

def DEFAULT_POLL_SECONDS : Nat := 3
def MAX_WAIT_SECONDS : Nat := 15 * 60

structure ProgressWorld where
  state_store : Option InMemoryStore
  /-- the arguments of every invocation of the wrapped tool, oldest first -/
  calls : List Args
deriving Repr, DecidableEq

inductive ProgressLoopExit where
  /-- the loop broke out on a `paid` status -/
  | paidExit
  /-- a `RuntimeError` (or a provider exception) escaped -/
  | raised (msg : String)
deriving Repr, DecidableEq

inductive ProgressOutcome where
  /-- the wrapper returned the tool's result -/
  | ok (r : ToolResult)
  /-- an exception escaped from the wrapper -/
  | raised (msg : String)
deriving Repr, DecidableEq

/-- The session extraction inlined in `_progress_wrapper` (it probes only
`ctx.session.id` and `ctx.session.session_id`, not the full
`extract_session_id` chain). -/
def progressSessionId (ctx : Option Ctx) : Option String :=
  match ctx with
  | some c =>
    match c.session with
    | some sess =>
      match sess.id with
      | some i => some i
      | none =>
        match sess.session_id with
        | some x => some x
        | none => none
    | none => none
  | none => none

/-- The `status == "paid"` branch of the polling loop: re-read the state and
write it back with `status = 'paid'` (plain dict mutation, no debug field). -/
def progressMarkPaid (now : Nat) (session : Option String)
    (store : Option InMemoryStore) : Option InMemoryStore :=
  match session, store with
  | some sid, some st =>
    if sid = "" then some st
    else
      match st.get now sid with
      | (some state, st1) => some (st1.put now sid { state with status := "paid" })
      | (none, st1) => some st1
  | _, _ => store

/-- `state_store.delete(session_id)` guarded by `if session_id and
state_store`, as in the terminal-status branch and the post-loop cleanup. -/
def progressDeleteState (session : Option String)
    (store : Option InMemoryStore) : Option InMemoryStore :=
  match session, store with
  | some sid, some st => if sid = "" then some st else some (st.delete sid)
  | _, _ => store

/-- The `else` clause of the `while` loop (budget exhausted): set the stored
status to `'timeout'` — deliberately retaining the state — and raise. -/
def progressTimeoutFinish (now : Nat) (session : Option String)
    (store : Option InMemoryStore) : ProgressLoopExit × Option InMemoryStore :=
  let store2 :=
    match session, store with
    | some sid, some st =>
      if sid = "" then some st
      else
        match st.get now sid with
        | (some state, st1) =>
          some (st1.put now sid { state with status := "timeout" })
        | (none, st1) => some st1
    | _, _ => store
  (ProgressLoopExit.raised "Payment timeout reached; aborting", store2)

/-- The polling loop of `_progress_wrapper`.  `fuel` is the number of polls
the `while waited < MAX_WAIT_SECONDS` bound still allows, i.e.
`(MAX_WAIT_SECONDS - waited) / DEFAULT_POLL_SECONDS`; the wrapper enters with
`fuel = 300`, `waited = 0`. -/
def progressLoop (provider : Provider) (payment_id : String)
    (session : Option String) (t0 : Nat) :
    Nat → Nat → Option InMemoryStore → ProgressLoopExit × Option InMemoryStore
  | 0, waited, store =>
    -- `waited` has reached `MAX_WAIT_SECONDS`: the loop's `else` clause
    progressTimeoutFinish (t0 + waited) session store
  | fuel + 1, waited, store =>
    -- `await asyncio.sleep(DEFAULT_POLL_SECONDS); waited += DEFAULT_POLL_SECONDS`
    let waited2 := waited + DEFAULT_POLL_SECONDS
    let now := t0 + waited2
    match provider now payment_id with
    | Except.error e =>
      -- the status call is not wrapped in try: the exception escapes
      (ProgressLoopExit.raised e, store)
    | Except.ok status =>
      if status = "paid" then
        (ProgressLoopExit.paidExit, progressMarkPaid now session store)
      else if status = "canceled" ∨ status = "expired" ∨ status = "failed" then
        (ProgressLoopExit.raised
          ("Payment status is " ++ status ++ ", expected 'paid'"),
         progressDeleteState session store)
      else
        progressLoop provider payment_id session t0 fuel waited2 store

/-- `_progress_wrapper(**kwargs)` entered at wall-clock time `t0`. -/
def progressWrapper (t0 : Nat) (ctx : Option Ctx) (kwargs : Args)
    (provider : Provider) (create_payment : String × String)
    (price_info : PriceInfo) (func_name : String) (func : Args → ToolResult)
    (webview : String → Bool) (w : ProgressWorld) :
    ProgressOutcome × ProgressWorld :=
  let session := progressSessionId ctx
  -- recovery preamble: consult the store for an existing payment
  let recovery :
      (Option (ProgressOutcome × ProgressWorld)) ×
        (String × String) × Option InMemoryStore :=
    match session, w.state_store with
    | some sid, some st =>
      if sid = "" then (none, ("", ""), some st)
      else
        match st.get t0 sid with
        | (none, st1) => (none, ("", ""), some st1)
        | (some state, st1) =>
          match provider t0 state.payment_id with
          | Except.error _ =>
            -- cannot check status: delete and create a new payment
            (none, ("", ""), some (st1.delete sid))
          | Except.ok status =>
            if status = "paid" then
              let st2 := st1.delete sid
              if state.tool_name = func_name then
                let merged := mergeArgs kwargs state.tool_args
                (some (ProgressOutcome.ok (func merged),
                  { state_store := some st2, calls := w.calls ++ [merged] }),
                 ("", ""), some st2)
              else
                (some (ProgressOutcome.ok (func kwargs),
                  { state_store := some st2, calls := w.calls ++ [kwargs] }),
                 ("", ""), some st2)
            else if status = "canceled" ∨ status = "expired" ∨
                status = "failed" then
              (none, ("", ""), some (st1.delete sid))
            else
              -- pending/processing (and any unknown status): reuse payment
              (none, (state.payment_id, state.payment_url), some st1)
    | _, _ => (none, ("", ""), w.state_store)
  match recovery.1 with
  | some r => r
  | none =>
    let ((payment_id0, payment_url0), store1) := recovery.2
    -- `if not payment_id:` — create a new payment and persist the state
    let ((payment_id, _payment_url), store2) :=
      if payment_id0 = "" then
        let (pid, url) := create_payment
        let store2 :=
          match session, store1 with
          | some sid, some st =>
            if sid = "" then some st
            else
              some (st.put t0 sid
                { session_id := sid, payment_id := pid, payment_url := url,
                  tool_name := func_name, tool_args := kwargs,
                  status := "requested", created_at := t0 })
          | _, _ => store1
        ((pid, url), store2)
      else ((payment_id0, payment_url0), store1)
    -- the webview/link message only feeds `ctx.report_progress`
    let _message := if webview _payment_url then
        opened_webview_message _payment_url price_info.price price_info.currency
      else open_link_message _payment_url price_info.price price_info.currency
    match progressLoop provider payment_id session t0
        (MAX_WAIT_SECONDS / DEFAULT_POLL_SECONDS) 0 store2 with
    | (ProgressLoopExit.raised msg, store3) =>
      (ProgressOutcome.raised msg, { state_store := store3, calls := w.calls })
    | (ProgressLoopExit.paidExit, store3) =>
      let result := func kwargs
      let store4 := progressDeleteState session store3
      (ProgressOutcome.ok result,
       { state_store := store4, calls := w.calls ++ [kwargs] })

/-! ### Elicitation (`utils/elicitation.py` and `payment/flows/elicitation.py`)

`ctx.elicit` is an external call: an oracle from the attempt number to an
outcome, which is either a returned action or a raised exception carrying a
message.  (The source's branch between the `response_type` and `schema`
calling conventions only adapts to the client SDK; both are one `elicit`
call.)  Exceptions raised by `run_elicitation_loop` itself are
`Except.error` with the `RuntimeError` message. -/

inductive ElicitOutcome where
  | act (action : String)
  | exc (msg : String)
deriving Repr, DecidableEq

/-- does `p` start the character list `l`? -/
def startsWithChars : List Char → List Char → Bool
  | [], _ => true
  | _ :: _, [] => false
  | c :: p, d :: l => c = d && startsWithChars p l

/-- does `pat` occur contiguously in `l`? -/
def containsChars (pat : List Char) : List Char → Bool
  | [] => startsWithChars pat []
  | c :: rest => startsWithChars pat (c :: rest) || containsChars pat rest

/-- Python `pat in s` (substring test). -/
def containsStr (s pat : String) : Bool :=
  containsChars pat.data s.data

/-- ASCII lowercasing of one character (`str.lower()`; the markers the
handler searches for are ASCII). -/
def lowerChar (c : Char) : Char :=
  if 65 ≤ c.toNat ∧ c.toNat ≤ 90 then Char.ofNat (c.toNat + 32) else c

/-- `str(e).lower()` on an exception message. -/
def toLowerStr (s : String) : String :=
  String.mk (s.data.map lowerChar)

/-- The `except` handler of the elicitation call (`run_elicitation_loop`,
lines 76–97): parse the action out of the error text, or convert to a fatal
`RuntimeError`.  `Except.ok a` means the exception was treated as the user
action `a`. -/
def handleElicitExc (msg : String) : Except String String :=
  let m := toLowerStr msg
  if containsStr m "unexpected elicitation action" then
    if containsStr m "accept" then Except.ok "accept"
    else if containsStr m "cancel" || containsStr m "decline" then
      Except.ok "cancel"
    else Except.error "Elicitation failed during confirmation loop."
  else Except.error "Elicitation failed during confirmation loop."

/-- One elicitation attempt: either the returned action, or the action parsed
from the exception by `handleElicitExc`. -/
def elicitAttemptAction (out : ElicitOutcome) : Except String String :=
  match out with
  | ElicitOutcome.act a => Except.ok a
  | ElicitOutcome.exc m => handleElicitExc m

/-- `run_elicitation_loop(ctx, func, message, provider, payment_id,
max_attempts=5)` at wall-clock time `now`; structural recursion on the
remaining attempts (`for attempt in range(max_attempts)`), entered with
`fuel = 5`, `attempt = 0`.  `Except.ok` carries the returned payment status;
`Except.error` a raised `RuntimeError` (or provider exception) message. -/
def runElicitationLoop (elicit : Nat → ElicitOutcome) (provider : Provider)
    (payment_id : String) (now : Nat) :
    Nat → Nat → Except String String
  | 0, _ =>
    -- attempts exhausted: return PaymentStatus.PENDING
    Except.ok "pending"
  | fuel + 1, attempt =>
    match elicitAttemptAction (elicit attempt) with
    | Except.error e => Except.error e
    | Except.ok action =>
      if action = "cancel" ∨ action = "decline" then
        Except.error "Payment canceled by user"
      else
        match provider now payment_id with
        | Except.error e => Except.error e
        | Except.ok status =>
          if status = "paid" ∨ status = "canceled" then Except.ok status
          else runElicitationLoop elicit provider payment_id now fuel
            (attempt + 1)

/-- The `try`/`except` around `run_elicitation_loop` in the elicitation flow
wrapper (`payment/flows/elicitation.py`, lines 141–156): on any exception,
update the stored status to `'timeout'` — preserving the state — and
re-raise. -/
def elicitationRunAndHandle (now : Nat) (session : Option String)
    (store : Option InMemoryStore) (elicit : Nat → ElicitOutcome)
    (provider : Provider) (payment_id : String) :
    Except String String × Option InMemoryStore :=
  match runElicitationLoop elicit provider payment_id now 5 0 with
  | Except.error e =>
    (Except.error e, update_payment_status now session store "timeout")
  | Except.ok status => (Except.ok status, store)

/-! ### Operation traces over the in-process store (claim C6)

The four public operations of the store as a syntax of operations, so that
"every reachable state" can be quantified over. -/

inductive StoreOp where
  | putOp (now : Nat) (key : String) (v : PaymentState)
  | getOp (now : Nat) (key : String)
  | getByPidOp (now : Nat) (pid : String)
  | delOp (key : String)
deriving Repr, DecidableEq

/-- The store each operation leaves behind. -/
def applyOp (s : InMemoryStore) : StoreOp → InMemoryStore
  | StoreOp.putOp now key v => s.put now key v
  | StoreOp.getOp now key => (s.get now key).2
  | StoreOp.getByPidOp now pid => (s.getByPaymentId now pid).2
  | StoreOp.delOp key => s.delete key

/-- Reachability by an arbitrary sequence of the four operations. -/
inductive ReachableAny : InMemoryStore → Prop where
  | init (ttl now : Nat) : ReachableAny (InMemoryStore.init ttl now)
  | step (s : InMemoryStore) (op : StoreOp) : ReachableAny s →
      ReachableAny (applyOp s op)

/-- The freshness discipline of the amended claim C6: every `put` carries a
non-empty payment id that is not currently indexed to a different key. -/
def GuardOK (s : InMemoryStore) : StoreOp → Prop
  | StoreOp.putOp _ key v => v.payment_id ≠ "" ∧
      (∀ k2, alookup s.payment_index v.payment_id = some k2 → k2 = key)
  | _ => True

/-- Reachability under the freshness discipline. -/
inductive ReachableG : InMemoryStore → Prop where
  | init (ttl now : Nat) : ReachableG (InMemoryStore.init ttl now)
  | step (s : InMemoryStore) (op : StoreOp) : ReachableG s → GuardOK s op →
      ReachableG (applyOp s op)

/-- The index-consistency invariant: every stored entry has a non-empty
payment id indexed back to its own key, and every index entry points at a
stored entry carrying that payment id. -/
def Inv (s : InMemoryStore) : Prop :=
  (∀ k v, alookup s.store k = some v →
      v.payment_id ≠ "" ∧ alookup s.payment_index v.payment_id = some k)
  ∧ (∀ p k, alookup s.payment_index p = some k →
      ∃ v, alookup s.store k = some v ∧ v.payment_id = p)

/-- Keys of the primary map are unambiguous: every binding is what lookup
returns.  (Holds for every store built by the operations.) -/
def KeysOnce (s : InMemoryStore) : Prop :=
  ∀ k v, (k, v) ∈ s.store → alookup s.store k = some v

/-! ### Basic lemmas about the store operations -/

theorem alookup_append {α : Type} (l1 l2 : List (String × α)) (k : String) :
    alookup (l1 ++ l2) k =
      match alookup l1 k with
      | some v => some v
      | none => alookup l2 k := by
  induction l1 with
  | nil => simp [alookup]
  | cons hd tl ih =>
    by_cases h : hd.1 = k <;> simp [alookup, h, ih]

theorem alookup_aerase_self {α : Type} (l : List (String × α)) (k : String) :
    alookup (aerase l k) k = none := by
  induction l with
  | nil => simp [alookup, aerase]
  | cons hd tl ih =>
    obtain ⟨k2, v⟩ := hd
    by_cases h : k2 = k <;> simp [alookup, aerase, h, ih]

theorem alookup_aerase_ne {α : Type} (l : List (String × α)) (k k2 : String)
    (h : k2 ≠ k) : alookup (aerase l k) k2 = alookup l k2 := by
  induction l with
  | nil => simp [alookup, aerase]
  | cons hd tl ih =>
    obtain ⟨k3, v⟩ := hd
    have hkk : ¬ k = k2 := fun hc => h hc.symm
    by_cases hh : k3 = k
    · have hne : ¬ k3 = k2 := by rw [hh]; exact hkk
      simp [aerase, hh, alookup, hne, ih, hkk]
    · by_cases h2 : k3 = k2 <;> simp [aerase, hh, alookup, h2, ih, h]

theorem alookup_ainsert_self {α : Type} (l : List (String × α)) (k : String)
    (v : α) : alookup (ainsert l k v) k = some v := by
  simp [ainsert, alookup_append, alookup_aerase_self, alookup]

theorem alookup_ainsert_ne {α : Type} (l : List (String × α)) (k k2 : String)
    (v : α) (h : k2 ≠ k) : alookup (ainsert l k v) k2 = alookup l k2 := by
  have h2 : alookup [(k, v)] k2 = none := by
    have : ¬ k = k2 := fun hc => h hc.symm
    simp [alookup, this]
  rw [ainsert, alookup_append]
  rw [alookup_aerase_ne l k k2 h]
  cases hl : alookup l k2 <;> simp [hl, h2]

theorem alookup_mem {α : Type} (l : List (String × α)) (k : String) (v : α)
    (h : alookup l k = some v) : (k, v) ∈ l := by
  induction l with
  | nil => cases h
  | cons hd tl ih =>
    obtain ⟨k2, v2⟩ := hd
    by_cases hk : k2 = k
    · subst hk
      simp [alookup] at h
      simp [h]
    · simp [alookup, hk] at h
      exact List.mem_cons_of_mem _ (ih h)

theorem not_mem_aerase_self {α : Type} (l : List (String × α)) (k : String)
    (v : α) : (k, v) ∉ aerase l k := by
  induction l with
  | nil => simp [aerase]
  | cons hd tl ih =>
    obtain ⟨k2, v2⟩ := hd
    by_cases hk : k2 = k
    · simpa [aerase, hk] using ih
    · intro hmem
      rcases (by simpa [aerase, hk] using hmem :
          k = k2 ∧ v = v2 ∨ (k, v) ∈ aerase tl k) with ⟨heq, _⟩ | htl
      · exact hk heq.symm
      · exact ih htl

theorem mem_ainsert_self {α : Type} (l : List (String × α)) (k : String)
    (v v2 : α) (h : (k, v2) ∈ ainsert l k v) : v2 = v := by
  rcases List.mem_append.mp h with hl | hr
  · exact absurd hl (not_mem_aerase_self l k v2)
  · simpa using hr

namespace InMemoryStore

theorem deleteWithIndex_ttl (s : InMemoryStore) (k : String) :
    (deleteWithIndex s k).ttl_seconds = s.ttl_seconds := by
  unfold deleteWithIndex
  cases alookup s.store k <;> simp

theorem deleteWithIndex_lc (s : InMemoryStore) (k : String) :
    (deleteWithIndex s k).last_cleanup = s.last_cleanup := by
  unfold deleteWithIndex
  cases alookup s.store k <;> simp

theorem deleteWithIndex_store_self (s : InMemoryStore) (k : String) :
    alookup (deleteWithIndex s k).store k = none := by
  unfold deleteWithIndex
  cases h : alookup s.store k with
  | none => simpa using h
  | some v => simp [alookup_aerase_self]

theorem deleteWithIndex_store_ne (s : InMemoryStore) (k k2 : String)
    (h : k2 ≠ k) :
    alookup (deleteWithIndex s k).store k2 = alookup s.store k2 := by
  unfold deleteWithIndex
  cases hl : alookup s.store k with
  | none => simp
  | some v => simp [alookup_aerase_ne _ _ _ h]

theorem deleteWithIndex_store_none (s : InMemoryStore) (k k2 : String)
    (h : alookup s.store k2 = none) :
    alookup (deleteWithIndex s k).store k2 = none := by
  by_cases hk : k2 = k
  · subst hk; exact deleteWithIndex_store_self s k2
  · rw [deleteWithIndex_store_ne s k k2 hk]; exact h

theorem deleteWithIndex_index_none (s : InMemoryStore) (k p : String)
    (h : alookup s.payment_index p = none) :
    alookup (deleteWithIndex s k).payment_index p = none := by
  unfold deleteWithIndex
  cases hl : alookup s.store k with
  | none => simpa using h
  | some v =>
    by_cases hb : v.payment_id ≠ "" ∧ (alookup s.payment_index v.payment_id).isSome
    · by_cases hp : p = v.payment_id
      · subst hp; simp [hb, alookup_aerase_self]
      · simp [hb, alookup_aerase_ne _ _ _ hp, h]
    · simp [hb, h]

theorem deleteWithIndex_index_self (s : InMemoryStore) (k : String)
    (v : PaymentState) (hl : alookup s.store k = some v)
    (hpid : v.payment_id ≠ "") :
    alookup (deleteWithIndex s k).payment_index v.payment_id = none := by
  unfold deleteWithIndex
  rw [hl]
  cases hi : alookup s.payment_index v.payment_id with
  | none => simp [hi, hpid]
  | some k2 => simp [hi, hpid, alookup_aerase_self]

theorem foldDelete_ttl (L : List String) (s : InMemoryStore) :
    (L.foldl deleteWithIndex s).ttl_seconds = s.ttl_seconds := by
  induction L generalizing s with
  | nil => rfl
  | cons hd tl ih => simp [List.foldl, ih, deleteWithIndex_ttl]

theorem foldDelete_lc (L : List String) (s : InMemoryStore) :
    (L.foldl deleteWithIndex s).last_cleanup = s.last_cleanup := by
  induction L generalizing s with
  | nil => rfl
  | cons hd tl ih => simp [List.foldl, ih, deleteWithIndex_lc]

theorem foldDelete_store_none (L : List String) (s : InMemoryStore)
    (k : String) (h : alookup s.store k = none) :
    alookup (L.foldl deleteWithIndex s).store k = none := by
  induction L generalizing s with
  | nil => exact h
  | cons hd tl ih =>
    exact ih _ (deleteWithIndex_store_none s hd k h)

theorem foldDelete_store_notMem (L : List String) (s : InMemoryStore)
    (k : String) (h : k ∉ L) :
    alookup (L.foldl deleteWithIndex s).store k = alookup s.store k := by
  induction L generalizing s with
  | nil => rfl
  | cons hd tl ih =>
    have hne : k ≠ hd := fun hc => h (by simp [hc])
    have htl : k ∉ tl := fun hc => h (by simp [hc])
    rw [List.foldl, ih _ htl, deleteWithIndex_store_ne s hd k hne]

theorem foldDelete_store_mem (L : List String) (s : InMemoryStore)
    (k : String) (h : k ∈ L) :
    alookup (L.foldl deleteWithIndex s).store k = none := by
  induction L generalizing s with
  | nil => cases h
  | cons hd tl ih =>
    by_cases hk : k = hd
    · subst hk
      exact foldDelete_store_none tl _ k (deleteWithIndex_store_self s k)
    · have : k ∈ tl := by
        cases h with
        | head => exact absurd rfl hk
        | tail _ hmem => exact hmem
      exact ih _ this

theorem foldDelete_index_none (L : List String) (s : InMemoryStore)
    (p : String) (h : alookup s.payment_index p = none) :
    alookup (L.foldl deleteWithIndex s).payment_index p = none := by
  induction L generalizing s with
  | nil => exact h
  | cons hd tl ih =>
    exact ih _ (deleteWithIndex_index_none s hd p h)

/-- Processing a key that is bound to `v` erases the index entry of
`v.payment_id` for good. -/
theorem foldDelete_index_of_key (L : List String) (s : InMemoryStore)
    (k : String) (v : PaymentState) (hl : alookup s.store k = some v)
    (hpid : v.payment_id ≠ "") (hk : k ∈ L) :
    alookup (L.foldl deleteWithIndex s).payment_index v.payment_id = none := by
  induction L generalizing s with
  | nil => cases hk
  | cons hd tl ih =>
    by_cases hkhd : k = hd
    · subst hkhd
      exact foldDelete_index_none tl _ _
        (deleteWithIndex_index_self s k v hl hpid)
    · have htl : k ∈ tl := by
        cases hk with
        | head => exact absurd rfl hkhd
        | tail _ hmem => exact hmem
      have hl2 : alookup (deleteWithIndex s hd).store k = some v := by
        rw [deleteWithIndex_store_ne s hd k hkhd]; exact hl
      exact ih _ hl2 htl

theorem cleanup_skip (now : Nat) (s : InMemoryStore)
    (h : now - s.last_cleanup < cleanupInterval) :
    cleanupIfNeeded now s = s := by
  unfold cleanupIfNeeded
  simp [h]

theorem cleanup_ttl (now : Nat) (s : InMemoryStore) :
    (cleanupIfNeeded now s).ttl_seconds = s.ttl_seconds := by
  unfold cleanupIfNeeded
  by_cases h : now - s.last_cleanup < cleanupInterval <;> simp [h, foldDelete_ttl]

/-- After `_cleanup_if_needed` runs at `now`, a further cleanup at the same
instant is always skipped. -/
theorem cleanup_lc_lt (now : Nat) (s : InMemoryStore) :
    now - (cleanupIfNeeded now s).last_cleanup < cleanupInterval := by
  unfold cleanupIfNeeded
  by_cases h : now - s.last_cleanup < cleanupInterval
  · simpa [h]
  · simp only [h, if_false]
    rw [foldDelete_lc]
    simp [cleanupInterval]

theorem cleanup_store_none (now : Nat) (s : InMemoryStore) (k : String)
    (h : alookup s.store k = none) :
    alookup (cleanupIfNeeded now s).store k = none := by
  unfold cleanupIfNeeded
  by_cases hc : now - s.last_cleanup < cleanupInterval
  · simpa [hc]
  · simp only [hc, if_false]
    exact foldDelete_store_none _ _ _ h

theorem cleanup_index_none (now : Nat) (s : InMemoryStore) (p : String)
    (h : alookup s.payment_index p = none) :
    alookup (cleanupIfNeeded now s).payment_index p = none := by
  unfold cleanupIfNeeded
  by_cases hc : now - s.last_cleanup < cleanupInterval
  · simpa [hc]
  · simp only [hc, if_false]
    exact foldDelete_index_none _ _ _ h

/-- Cleanup at `now` keeps a key every binding of which is unexpired. -/
theorem cleanup_store_unexpired (now : Nat) (s : InMemoryStore) (k : String)
    (v : PaymentState) (hl : alookup s.store k = some v)
    (hfresh : ∀ v2, (k, v2) ∈ s.store → ¬ now - v2.timestamp > s.ttl_seconds) :
    alookup (cleanupIfNeeded now s).store k = some v := by
  unfold cleanupIfNeeded
  by_cases hc : now - s.last_cleanup < cleanupInterval
  · simpa [hc]
  · simp only [hc, if_false]
    have hnot : k ∉ (s.store.filter
        (fun kv => now - kv.2.timestamp > s.ttl_seconds)).map
          (fun kv => kv.1) := by
      intro hmem
      rcases List.mem_map.mp hmem with ⟨kv, hkv, hk1⟩
      rcases List.mem_filter.mp hkv with ⟨hkvmem, hexp⟩
      obtain ⟨k1, v2⟩ := kv
      cases hk1
      exact hfresh v2 hkvmem (by simpa using hexp)
    rw [foldDelete_store_notMem _ _ _ hnot]
    exact hl

theorem put_ttl (s : InMemoryStore) (now : Nat) (k : String)
    (v : PaymentState) : (s.put now k v).ttl_seconds = s.ttl_seconds := by
  unfold put
  by_cases hp : v.payment_id ≠ "" <;>
    cases alookup (cleanupIfNeeded now s).store k <;>
    simp [hp, cleanup_ttl]

theorem put_lc_lt (s : InMemoryStore) (now : Nat) (k : String)
    (v : PaymentState) :
    now - (s.put now k v).last_cleanup < cleanupInterval := by
  unfold put
  by_cases hp : v.payment_id ≠ "" <;>
    cases alookup (cleanupIfNeeded now s).store k <;>
    simp [hp, cleanup_lc_lt]

theorem put_store_self (s : InMemoryStore) (now : Nat) (k : String)
    (v : PaymentState) :
    alookup (s.put now k v).store k = some { v with timestamp := now } := by
  unfold put
  by_cases hp : v.payment_id ≠ "" <;>
    cases alookup (cleanupIfNeeded now s).store k <;>
    simp [hp, alookup_ainsert_self]

theorem put_store_ne (s : InMemoryStore) (now : Nat) (k k2 : String)
    (v : PaymentState) (h : k2 ≠ k) :
    alookup (s.put now k v).store k2 =
      alookup (cleanupIfNeeded now s).store k2 := by
  unfold put
  by_cases hp : v.payment_id ≠ "" <;>
    cases alookup (cleanupIfNeeded now s).store k <;>
    simp [hp, alookup_ainsert_ne _ _ _ _ h]

theorem put_store_none (s : InMemoryStore) (now : Nat) (k k2 : String)
    (v : PaymentState) (hne : k2 ≠ k) (h : alookup s.store k2 = none) :
    alookup (s.put now k v).store k2 = none := by
  rw [put_store_ne s now k k2 v hne]
  exact cleanup_store_none now s k2 h

theorem put_index_self (s : InMemoryStore) (now : Nat) (k : String)
    (v : PaymentState) (hpid : v.payment_id ≠ "") :
    alookup (s.put now k v).payment_index v.payment_id = some k := by
  unfold put
  cases alookup (cleanupIfNeeded now s).store k <;>
    simp [hpid, alookup_ainsert_self]

theorem get_none_of_lookup (s : InMemoryStore) (now : Nat) (k : String)
    (hl : alookup (cleanupIfNeeded now s).store k = none) :
    s.get now k = (none, cleanupIfNeeded now s) := by
  unfold get
  simp only [hl]

theorem get_expired_of_lookup (s : InMemoryStore) (now : Nat) (k : String)
    (v : PaymentState)
    (hl : alookup (cleanupIfNeeded now s).store k = some v)
    (he : now - v.timestamp > (cleanupIfNeeded now s).ttl_seconds) :
    s.get now k = (none, deleteWithIndex (cleanupIfNeeded now s) k) := by
  unfold get
  simp only [hl]
  rw [if_pos he]

theorem get_fresh_of_lookup (s : InMemoryStore) (now : Nat) (k : String)
    (v : PaymentState)
    (hl : alookup (cleanupIfNeeded now s).store k = some v)
    (he : ¬ now - v.timestamp > (cleanupIfNeeded now s).ttl_seconds) :
    s.get now k = (some v, cleanupIfNeeded now s) := by
  unfold get
  simp only [hl]
  rw [if_neg he]

/-- An expired entry (and its index entry) does not survive a cleanup that
actually runs. -/
theorem cleanup_expired_gone (now : Nat) (s : InMemoryStore) (k : String)
    (v : PaymentState) (hl : alookup s.store k = some v)
    (hrun : ¬ now - s.last_cleanup < cleanupInterval)
    (he : now - v.timestamp > s.ttl_seconds) :
    alookup (cleanupIfNeeded now s).store k = none
    ∧ (v.payment_id ≠ "" →
        alookup (cleanupIfNeeded now s).payment_index v.payment_id = none) := by
  have hmem : k ∈ (s.store.filter
      (fun kv => now - kv.2.timestamp > s.ttl_seconds)).map (fun kv => kv.1) := by
    refine List.mem_map.mpr ⟨(k, v), ?_, rfl⟩
    exact List.mem_filter.mpr ⟨alookup_mem _ _ _ hl, by simpa using he⟩
  unfold cleanupIfNeeded
  simp only [hrun, if_false]
  refine ⟨foldDelete_store_mem _ _ _ hmem, fun hp => ?_⟩
  exact foldDelete_index_of_key _ _ k v hl hp hmem

/-- The primary map after `put` is always the cleaned map with the stamped
value inserted (whatever the index branch did). -/
theorem put_store_eq (s : InMemoryStore) (now : Nat) (key : String)
    (v : PaymentState) :
    (s.put now key v).store =
      ainsert (cleanupIfNeeded now s).store key { v with timestamp := now } := by
  unfold put
  by_cases hp : v.payment_id ≠ "" <;>
    cases alookup (cleanupIfNeeded now s).store key <;>
    simp [hp]

theorem put_store_bindings (s : InMemoryStore) (now : Nat) (k : String)
    (v v2 : PaymentState) (h : (k, v2) ∈ (s.put now k v).store) :
    v2 = { v with timestamp := now } := by
  rw [put_store_eq] at h
  exact mem_ainsert_self _ _ _ _ h

theorem get_snd_ttl (s : InMemoryStore) (now : Nat) (k : String) :
    ((s.get now k).2).ttl_seconds = s.ttl_seconds := by
  unfold get
  cases hl : alookup (cleanupIfNeeded now s).store k with
  | none => simp [hl, cleanup_ttl]
  | some v =>
    simp only [hl]
    by_cases he : now - v.timestamp > (cleanupIfNeeded now s).ttl_seconds
    · rw [if_pos he]
      simp [deleteWithIndex_ttl, cleanup_ttl]
    · rw [if_neg he]
      simp [cleanup_ttl]

theorem get_some_elim (s s1 : InMemoryStore) (now : Nat) (k : String)
    (v : PaymentState) (h : s.get now k = (some v, s1)) :
    s1 = cleanupIfNeeded now s ∧ alookup s1.store k = some v ∧
      ¬ now - v.timestamp > s1.ttl_seconds := by
  unfold get at h
  simp only at h
  cases hl : alookup (cleanupIfNeeded now s).store k with
  | none => rw [hl] at h; cases h
  | some v2 =>
    rw [hl] at h
    by_cases hexp : now - v2.timestamp > (cleanupIfNeeded now s).ttl_seconds
    · simp [hexp] at h
    · simp [hexp] at h
      obtain ⟨hv, hs⟩ := h
      subst hv
      exact ⟨hs.symm, by rw [← hs]; exact hl, by rw [← hs]; exact hexp⟩

end InMemoryStore

/-! ### Claim C8 — session-id extraction order -/

/-- C8: for every context object, session-id extraction probes exactly
`.session_id`, then `.session.id`, then `.session.session_id`, then
`.meta["session_id"]`, and returns the first hit; with no hit it falls back
to `"req_" ++ request_id` when a request id exists and is absent otherwise.
(The embedding is a pure function of the context, which is therefore never
mutated.) -/
theorem C8_extract_session_id_first_hit (ctx : Option Ctx) :
    extract_session_id ctx = extractSessionIdSpec ctx := by
  cases ctx with
  | none => rfl
  | some c =>
    obtain ⟨sid, sess, meta, rid, sig⟩ := c
    cases sid with
    | some v => rfl
    | none =>
      have hmeta : ∀ m : Option (List (String × String)),
          extract_session_id.extractFromMeta ⟨none, sess, m, rid, sig⟩ =
            (m.bind (fun l => alookup l "session_id")).orElse (fun _ =>
              rid.map (fun r => "req_" ++ r)) := by
        intro m
        cases m with
        | none =>
          cases rid <;>
            simp [extract_session_id.extractFromMeta,
              extract_session_id.extractReq, Option.orElse]
        | some l =>
          cases l with
          | nil =>
            cases rid <;>
              simp [extract_session_id.extractFromMeta,
                extract_session_id.extractReq, Option.orElse, alookup]
          | cons hd tl =>
            cases hl : alookup (hd :: tl) "session_id" with
            | some v =>
              simp [extract_session_id.extractFromMeta,
                extract_session_id.extractReq, Option.orElse, hl]
            | none =>
              cases rid <;>
                simp [extract_session_id.extractFromMeta,
                  extract_session_id.extractReq, Option.orElse, hl]
      cases sess with
      | none =>
        simp [extract_session_id, extractSessionIdSpec, Option.orElse, hmeta]
      | some so =>
        obtain ⟨soid, sosid⟩ := so
        cases soid with
        | some v =>
          simp [extract_session_id, extractSessionIdSpec, Option.orElse]
        | none =>
          cases sosid with
          | some v =>
            simp [extract_session_id, extractSessionIdSpec, Option.orElse]
          | none =>
            simp [extract_session_id, extractSessionIdSpec, Option.orElse,
              hmeta]

/-! ### Claim C10 — structured content of the response builder -/

/-- C10: the envelope built by `build_response` carries `structured_content`
iff both `next_step` and `payment_url` are non-empty; when present, `data` is
the identical object, and the inner status is `"payment_required"` when the
envelope status is `pending` and `"payment_<status>"` otherwise; error and
canceled envelopes (built without a `next_step`) never carry
`structured_content` or `data`. -/
theorem C10_build_response_structured_content
    (message status : String) (payment_id payment_url next_step reason :
      Option String) (raw_result : Option ToolResult) (amount : Option Rat)
    (currency : Option String) :
    let r := build_response message status payment_id payment_url next_step
      reason raw_result amount currency
    (r.structured_content.isSome = (truthy next_step && truthy payment_url))
    ∧ r.data = r.structured_content
    ∧ (∀ sc, r.structured_content = some sc →
        sc.status = if status = "pending" then "payment_required"
                    else "payment_" ++ status)
    ∧ (∀ m re p u, (build_error_response m re p u).structured_content = none
        ∧ (build_error_response m re p u).data = none)
    ∧ (∀ m p u, (build_canceled_response m p u).structured_content = none
        ∧ (build_canceled_response m p u).data = none) := by
  refine ⟨?_, ?_, ?_, ?_, ?_⟩
  · by_cases h : truthy next_step && truthy payment_url <;>
      simp [build_response, h]
  · by_cases h : truthy next_step && truthy payment_url <;>
      simp [build_response, h]
  · intro sc hsc
    by_cases h : truthy next_step && truthy payment_url
    · simp [build_response, h] at hsc
      by_cases hp : status = "pending" <;> simp [← hsc, hp]
    · simp [build_response, h] at hsc
  · intro m re p u
    simp [build_error_response, build_response, truthy]
  · intro m p u
    simp [build_canceled_response, build_response, truthy]

/-- Closed instance of C10 at a concrete pending two-step input. -/
theorem C10_build_response_structured_content_witness :
    let r := build_response "m" "pending" (some "P") (some "https://u")
      (some "confirm_t_payment") none none none none
    (r.structured_content.isSome = (truthy (some "confirm_t_payment") &&
      truthy (some "https://u")))
    ∧ r.data = r.structured_content
    ∧ (∀ sc, r.structured_content = some sc → sc.status =
        if "pending" = "pending" then "payment_required"
        else "payment_" ++ "pending") := by
  have h := C10_build_response_structured_content "m" "pending" (some "P")
    (some "https://u") (some "confirm_t_payment") none none none none
  exact ⟨h.1, h.2.1, h.2.2.1⟩

/-! ### Claim C1 — `check_existing_payment` follows the provider status -/

/-- C1: with a non-empty session id and a store holding a state for that
session, `check_existing_payment` follows the provider's reported status:
`paid` deletes the state and returns the id, the url, the stored args iff the
stored tool name matches, and `should_execute = true`; `pending`/`processing`
keeps the state and returns the id and url without executing;
`canceled`/`expired`/`failed` deletes the state and returns absent; and a
provider exception deletes the state and returns absent. -/
theorem C1_check_existing_payment_follows_status
    (now : Nat) (sid : String) (st st1 : InMemoryStore) (state : PaymentState)
    (provider : Provider) (tool_name : String) (tool_args : Args)
    (hsid : sid ≠ "")
    (hget : st.get now sid = (some state, st1)) :
    let r := check_existing_payment now (some sid) (some st) provider
      tool_name tool_args
    (provider now state.payment_id = Except.ok "paid" →
      r = (⟨some state.payment_id, some state.payment_url,
            if state.tool_name = tool_name then some state.tool_args else none,
            true⟩, some (st1.delete sid))
      ∧ alookup (st1.delete sid).store sid = none)
    ∧ (∀ s, (s = "pending" ∨ s = "processing") →
        provider now state.payment_id = Except.ok s →
        r = (⟨some state.payment_id, some state.payment_url, none, false⟩,
             some st1)
        ∧ alookup st1.store sid = some state)
    ∧ (∀ s, (s = "canceled" ∨ s = "expired" ∨ s = "failed") →
        provider now state.payment_id = Except.ok s →
        r = (⟨none, none, none, false⟩, some (st1.delete sid))
        ∧ alookup (st1.delete sid).store sid = none)
    ∧ (∀ e, provider now state.payment_id = Except.error e →
        r = (⟨none, none, none, false⟩, some (st1.delete sid))
        ∧ alookup (st1.delete sid).store sid = none) := by
  have hdel : alookup (st1.delete sid).store sid = none :=
    InMemoryStore.deleteWithIndex_store_self st1 sid
  have hkeep : alookup st1.store sid = some state :=
    (InMemoryStore.get_some_elim st st1 now sid state hget).2.1
  refine ⟨?_, ?_, ?_, ?_⟩
  · intro hp
    constructor
    · simp only [check_existing_payment, hsid, if_false, hget, hp]
      by_cases hb : state.tool_name = tool_name <;> simp [hb]
    · exact hdel
  · rintro s (rfl | rfl) hp <;>
      exact ⟨by simp [check_existing_payment, hsid, hget, hp], hkeep⟩
  · rintro s (rfl | rfl | rfl) hp <;>
      exact ⟨by simp [check_existing_payment, hsid, hget, hp], hdel⟩
  · intro e hp
    exact ⟨by simp [check_existing_payment, hsid, hget, hp], hdel⟩

/-- Closed instance of C1 at a concrete paid recovery. -/
theorem C1_check_existing_payment_follows_status_witness :
    check_existing_payment 0 (some "S")
      (some ((InMemoryStore.init 3600 0).put 0 "S"
        ⟨"S", "P", "U", "t", [("a", "1")], "requested", 0, [], 0⟩))
      (fun _ _ => Except.ok "paid") "t" []
    = (⟨some "P", some "U", some [("a", "1")], true⟩,
       some (((InMemoryStore.init 3600 0).put 0 "S"
        ⟨"S", "P", "U", "t", [("a", "1")], "requested", 0, [], 0⟩).delete "S"))
    := by
  have h := C1_check_existing_payment_follows_status 0 "S"
    ((InMemoryStore.init 3600 0).put 0 "S"
      ⟨"S", "P", "U", "t", [("a", "1")], "requested", 0, [], 0⟩)
    ((InMemoryStore.init 3600 0).put 0 "S"
      ⟨"S", "P", "U", "t", [("a", "1")], "requested", 0, [], 0⟩)
    ⟨"S", "P", "U", "t", [("a", "1")], "requested", 0, [], 0⟩
    (fun _ _ => Except.ok "paid") "t" [] (by decide) (by decide)
  simpa using (h.1 rfl).1

/-! ### Claim C9 — `update_payment_status` frame -/

/-- C9 counterexample: `update_payment_status` does not change only the
`status` field.  Besides the `_timestamp` refresh done by the store's `put`,
the helper itself writes a new `status_<new>_at` debug timestamp field
(`state[f'status_{status}_at'] = time.time()`, modelled by the `statusAt`
entry): the entry stored for the session gains the `("paid", 0)` stamp that
was absent before the call. -/
theorem C9_counterexample :
    (alookup ((InMemoryStore.init 3600 0).put 0 "S"
        ⟨"S", "P", "U", "t", [], "requested", 0, [], 0⟩).store "S").map
      PaymentState.statusAt = some []
    ∧ ((update_payment_status 0 (some "S")
          (some ((InMemoryStore.init 3600 0).put 0 "S"
            ⟨"S", "P", "U", "t", [], "requested", 0, [], 0⟩)) "paid").bind
        (fun st => alookup st.store "S")).map PaymentState.statusAt
      = some [("paid", 0)] := by
  decide

/-- C9 (amended): `update_payment_status` is a read-modify-write that changes
`status`, records the `status_<new>_at` debug timestamp (written by the
helper itself), and lets the store refresh `_timestamp`; every other field of
the stored state is preserved, and when no entry exists for the session
nothing is written. -/
theorem C9_update_payment_status_frame
    (now : Nat) (sid : String) (st st1 : InMemoryStore)
    (status : String) (state : PaymentState)
    (hsid : sid ≠ "")
    (hget : st.get now sid = (some state, st1)) :
    let res := update_payment_status now (some sid) (some st) status
    res = some (st1.put now sid { state with
      status := status, statusAt := ainsert state.statusAt status now })
    ∧ (∃ r, res.bind (fun s2 => alookup s2.store sid) = some r
        ∧ r.status = status
        ∧ r.statusAt = ainsert state.statusAt status now
        ∧ r.timestamp = now
        ∧ r.session_id = state.session_id
        ∧ r.payment_id = state.payment_id
        ∧ r.payment_url = state.payment_url
        ∧ r.tool_name = state.tool_name
        ∧ r.tool_args = state.tool_args
        ∧ r.created_at = state.created_at)
    ∧ (∀ st2 : InMemoryStore, alookup st2.store sid = none →
        now - st2.last_cleanup < cleanupInterval →
        update_payment_status now (some sid) (some st2) status = some st2) := by
  have hres : update_payment_status now (some sid) (some st) status =
      some (st1.put now sid { state with
        status := status, statusAt := ainsert state.statusAt status now }) := by
    simp only [update_payment_status, hsid, if_false, hget]
  refine ⟨hres, ?_, ?_⟩
  · refine Exists.intro
      { state with
          status := status
          statusAt := ainsert state.statusAt status now
          timestamp := now }
      ⟨?_, rfl, rfl, rfl, rfl, rfl, rfl, rfl, rfl, rfl⟩
    rw [hres]
    simpa using InMemoryStore.put_store_self st1 now sid _
  · intro st2 hnone hlc
    simp only [update_payment_status, hsid, if_false, InMemoryStore.get,
      InMemoryStore.cleanup_skip now st2 hlc, hnone]

/-- Closed instance of C9 (amended) at a concrete store. -/
theorem C9_update_payment_status_frame_witness :
    update_payment_status 0 (some "S")
      (some ((InMemoryStore.init 3600 0).put 0 "S"
        ⟨"S", "P", "U", "t", [("a", "1")], "requested", 0, [], 0⟩)) "paid"
    = some (((InMemoryStore.init 3600 0).put 0 "S"
        ⟨"S", "P", "U", "t", [("a", "1")], "requested", 0, [], 0⟩).put 0 "S"
      ⟨"S", "P", "U", "t", [("a", "1")], "paid", 0, [("paid", 0)], 0⟩) := by
  have h := C9_update_payment_status_frame 0 "S"
    ((InMemoryStore.init 3600 0).put 0 "S"
      ⟨"S", "P", "U", "t", [("a", "1")], "requested", 0, [], 0⟩)
    ((InMemoryStore.init 3600 0).put 0 "S"
      ⟨"S", "P", "U", "t", [("a", "1")], "requested", 0, [], 0⟩)
    "paid" ⟨"S", "P", "U", "t", [("a", "1")], "requested", 0, [], 0⟩
    (by decide) (by decide)
  simpa [ainsert, aerase] using h.1

/-! ### Claim C5 — TTL expiry and the default TTL -/

/-- C5 counterexample: the in-process store's TTL does not default to 1800
seconds.  `InMemoryStore.__init__` declares `ttl_seconds: int = 3600` and
`PayMCP.__init__` constructs `InMemoryStore()` with no argument, so the
default is 3600 seconds (one hour); the unused constant
`Timing.STATE_TTL_SECONDS = 1800` is never wired in. -/
theorem C5_counterexample :
    (InMemoryStore.initDefault 0).ttl_seconds = 3600
    ∧ (InMemoryStore.initDefault 0).ttl_seconds ≠ 1800 := by
  decide

/-- C5 (amended): a state written at time `t` behaves as absent to `get` and
`get_by_payment_id` at any time later than `t + TTL`, and the next access
removes both the primary entry and its payment-id index entry; the TTL
defaults to 3600 seconds (1 hour) when no value is configured. -/
theorem C5_ttl_expiry
    (s : InMemoryStore) (t now : Nat) (key : String) (v : PaymentState)
    (hpid : v.payment_id ≠ "")
    (hlate : t + s.ttl_seconds < now) :
    let s1 := s.put t key v
    (s1.get now key).1 = none
    ∧ alookup (s1.get now key).2.store key = none
    ∧ alookup (s1.get now key).2.payment_index v.payment_id = none
    ∧ (s1.getByPaymentId now v.payment_id).1 = none
    ∧ (InMemoryStore.initDefault 0).ttl_seconds = 3600 := by
  intro s1
  have hstore : alookup s1.store key = some { v with timestamp := t } :=
    InMemoryStore.put_store_self s t key v
  have httl : s1.ttl_seconds = s.ttl_seconds := InMemoryStore.put_ttl s t key v
  have hidx : alookup s1.payment_index v.payment_id = some key :=
    InMemoryStore.put_index_self s t key v hpid
  have hexp : now - ({ v with timestamp := t } : PaymentState).timestamp >
      s1.ttl_seconds := by
    simp only [httl]
    omega
  have hwpid : ({ v with timestamp := t } : PaymentState).payment_id ≠ "" := by
    simpa using hpid
  have hget : (s1.get now key).1 = none
      ∧ alookup (s1.get now key).2.store key = none
      ∧ alookup (s1.get now key).2.payment_index v.payment_id = none := by
    by_cases hc : now - s1.last_cleanup < cleanupInterval
    · have hclean : InMemoryStore.cleanupIfNeeded now s1 = s1 :=
        InMemoryStore.cleanup_skip now s1 hc
      have hgeteq : s1.get now key =
          (none, InMemoryStore.deleteWithIndex s1 key) := by
        have := InMemoryStore.get_expired_of_lookup s1 now key _
          (by rw [hclean]; exact hstore) (by rw [hclean]; exact hexp)
        rwa [hclean] at this
      rw [hgeteq]
      refine ⟨rfl, ?_, ?_⟩
      · exact InMemoryStore.deleteWithIndex_store_self s1 key
      · exact InMemoryStore.deleteWithIndex_index_self s1 key
          { v with timestamp := t } hstore hwpid
    · have hgone := InMemoryStore.cleanup_expired_gone now s1 key _ hstore hc
        hexp
      have hgeteq : s1.get now key =
          (none, InMemoryStore.cleanupIfNeeded now s1) :=
        InMemoryStore.get_none_of_lookup s1 now key hgone.1
      rw [hgeteq]
      exact ⟨rfl, hgone.1, by simpa using hgone.2 hwpid⟩
  refine ⟨hget.1, hget.2.1, hget.2.2, ?_, rfl⟩
  unfold InMemoryStore.getByPaymentId
  rw [hidx]
  exact hget.1

/-- Closed instance of C5 (amended): a state written at time 0 into a store
with the default TTL is gone at time 3601. -/
theorem C5_ttl_expiry_witness :
    (((InMemoryStore.initDefault 0).put 0 "S"
        ⟨"S", "P", "U", "t", [], "requested", 0, [], 0⟩).get 3601 "S").1 = none
    ∧ (((InMemoryStore.initDefault 0).put 0 "S"
        ⟨"S", "P", "U", "t", [], "requested", 0, [], 0⟩).getByPaymentId
          3601 "P").1 = none := by
  have h := C5_ttl_expiry (InMemoryStore.initDefault 0) 0 3601 "S"
    ⟨"S", "P", "U", "t", [], "requested", 0, [], 0⟩ (by decide) (by decide)
  exact ⟨h.1, h.2.2.2.1⟩

/-! ### Claim C7 — exception handling in the elicitation loop -/

/-- C7 counterexample: an exception from `elicit` whose text names `cancel`
is NOT treated as the user action cancel.  The handler only parses messages
containing `"unexpected elicitation action"`; the exception text `"cancel"`
lacks that marker, so it is fatal (`RuntimeError("Elicitation failed during
confirmation loop.")`) instead of being treated as cancel (which would raise
`"Payment canceled by user"`). -/
theorem C7_counterexample :
    handleElicitExc "cancel"
      = Except.error "Elicitation failed during confirmation loop."
    ∧ runElicitationLoop (fun _ => ElicitOutcome.exc "cancel")
        (fun _ _ => Except.ok "pending") "P" 0 5 0
      = Except.error "Elicitation failed during confirmation loop."
    ∧ handleElicitExc "cancel" ≠ Except.ok "cancel" := by
  refine ⟨rfl, rfl, ?_⟩
  intro h
  cases h

/-- C7 (amended): in the elicitation loop, only exceptions whose lowercased
text contains `"unexpected elicitation action"` are parsed: among those, text
naming `accept` is treated as the action accept (checked first), otherwise
text naming `cancel` or `decline` is treated as the action cancel (which
raises `"Payment canceled by user"`); every other exception is fatal — it is
re-raised as `"Elicitation failed during confirmation loop."`, and the flow
wrapper then updates the stored state's status to `timeout` while preserving
the state. -/
theorem C7_elicitation_exception_handling
    (msg : String) (elicit : Nat → ElicitOutcome) (provider : Provider)
    (pid : String) (now : Nat) (sid : String) (st st1 : InMemoryStore)
    (state : PaymentState)
    (hor : elicit 0 = ElicitOutcome.exc msg)
    (hsid : sid ≠ "")
    (hget : st.get now sid = (some state, st1)) :
    (containsStr (toLowerStr msg) "unexpected elicitation action" = false →
      handleElicitExc msg
        = Except.error "Elicitation failed during confirmation loop."
      ∧ runElicitationLoop elicit provider pid now 5 0
        = Except.error "Elicitation failed during confirmation loop."
      ∧ (elicitationRunAndHandle now (some sid) (some st) elicit provider
          pid).1
        = Except.error "Elicitation failed during confirmation loop."
      ∧ (∃ stF r, (elicitationRunAndHandle now (some sid) (some st) elicit
            provider pid).2 = some stF
          ∧ alookup stF.store sid = some r ∧ r.status = "timeout"
          ∧ r.tool_args = state.tool_args
          ∧ r.payment_id = state.payment_id))
    ∧ (containsStr (toLowerStr msg) "unexpected elicitation action" = true →
        containsStr (toLowerStr msg) "accept" = true →
        handleElicitExc msg = Except.ok "accept")
    ∧ (containsStr (toLowerStr msg) "unexpected elicitation action" = true →
        containsStr (toLowerStr msg) "accept" = false →
        (containsStr (toLowerStr msg) "cancel" = true ∨
          containsStr (toLowerStr msg) "decline" = true) →
        handleElicitExc msg = Except.ok "cancel"
        ∧ runElicitationLoop elicit provider pid now 5 0
          = Except.error "Payment canceled by user") := by
  refine ⟨?_, ?_, ?_⟩
  · intro hguard
    have hh : handleElicitExc msg
        = Except.error "Elicitation failed during confirmation loop." := by
      simp only [handleElicitExc]
      rw [hguard]
      simp
    have hloop : runElicitationLoop elicit provider pid now 5 0
        = Except.error "Elicitation failed during confirmation loop." := by
      show runElicitationLoop elicit provider pid now (4 + 1) 0 = _
      rw [runElicitationLoop]
      rw [hor]
      simp [elicitAttemptAction, hh]
    have hflow : elicitationRunAndHandle now (some sid) (some st) elicit
        provider pid =
        (Except.error "Elicitation failed during confirmation loop.",
         update_payment_status now (some sid) (some st) "timeout") := by
      unfold elicitationRunAndHandle
      rw [hloop]
    have hupd : update_payment_status now (some sid) (some st) "timeout" =
        some (st1.put now sid
          { state with
              status := "timeout"
              statusAt := ainsert state.statusAt "timeout" now }) := by
      simp only [update_payment_status, hsid, if_false, hget]
    refine ⟨hh, hloop, by rw [hflow], ?_⟩
    refine Exists.intro
      (st1.put now sid
        { state with
            status := "timeout"
            statusAt := ainsert state.statusAt "timeout" now })
      (Exists.intro
        { state with
            status := "timeout"
            statusAt := ainsert state.statusAt "timeout" now
            timestamp := now }
        ⟨by rw [hflow]; exact hupd, ?_, rfl, rfl, rfl⟩)
    simpa using InMemoryStore.put_store_self st1 now sid _
  · intro hguard haccept
    simp only [handleElicitExc]
    rw [hguard, haccept]
    simp
  · intro hguard haccept hcd
    have hh : handleElicitExc msg = Except.ok "cancel" := by
      simp only [handleElicitExc]
      rw [hguard, haccept]
      rcases hcd with hc | hd
      · simp [hc]
      · simp [hd]
    refine ⟨hh, ?_⟩
    show runElicitationLoop elicit provider pid now (4 + 1) 0 = _
    rw [runElicitationLoop]
    rw [hor]
    simp [elicitAttemptAction, hh]

/-- Closed instance of C7 (amended): a fatal exception text with none of the
markers, at a concrete store; the state survives with status `timeout`. -/
theorem C7_elicitation_exception_handling_witness :
    handleElicitExc "boom"
      = Except.error "Elicitation failed during confirmation loop."
    ∧ runElicitationLoop (fun _ => ElicitOutcome.exc "boom")
        (fun _ _ => Except.ok "pending") "P" 0 5 0
      = Except.error "Elicitation failed during confirmation loop." := by
  have h := C7_elicitation_exception_handling "boom"
    (fun _ => ElicitOutcome.exc "boom") (fun _ _ => Except.ok "pending")
    "P" 0 "S"
    ((InMemoryStore.init 3600 0).put 0 "S"
      ⟨"S", "P", "U", "t", [("a", "1")], "requested", 0, [], 0⟩)
    ((InMemoryStore.init 3600 0).put 0 "S"
      ⟨"S", "P", "U", "t", [("a", "1")], "requested", 0, [], 0⟩)
    ⟨"S", "P", "U", "t", [("a", "1")], "requested", 0, [], 0⟩
    rfl (by decide) (by decide)
  have h1 := h.1 rfl
  exact ⟨h1.1, h1.2.1⟩

/-! ### Claim C2 — two-step duplicate confirm -/

/-- C2: after a two-step initiation stored the arguments for a payment whose
provider status is `paid`, calling the companion confirm tool twice with that
payment id invokes the original tool exactly once, with the arguments stored
at initiation: the first call returns the success response built from the
tool's result and deletes both the session entry and the payment-id index
entry; the second call returns `error(reason="invalid_payment_id")` without
invoking the tool.  (`st1` abbreviates the store as `store_payment_args`
leaves it; the hypotheses say the payment id is fresh: it is not a primary
key of the starting store nor a legacy `PENDING_ARGS` key.) -/
theorem C2_two_step_duplicate_confirm
    (now : Nat) (sid pid url tool : String) (args : Args)
    (provider : Provider) (func : Args → ToolResult)
    (s0 : InMemoryStore) (pend : List (String × Args)) (cs : List Args)
    (st1 : InMemoryStore)
    (hsid : sid ≠ "") (hpid : pid ≠ "")
    (hs0 : alookup s0.store pid = none)
    (hpend : alookup pend pid = none)
    (hpaid : ∀ n, provider n pid = Except.ok "paid")
    (hst1 : st1 = s0.put now sid
      ⟨sid, pid, url, tool, args, "requested", now, [], 0⟩) :
    store_payment_args now (some sid) pid url tool args (some s0) pend
      = (some st1, pend)
    ∧ (twoStepConfirm now pid provider func ⟨some st1, pend, cs⟩).1
      = build_success_response (call_original_tool func args) (some pid)
    ∧ (twoStepConfirm now pid provider func ⟨some st1, pend, cs⟩).2
      = ⟨some (st1.delete sid), pend, cs ++ [args]⟩
    ∧ alookup (st1.delete sid).store sid = none
    ∧ alookup (st1.delete sid).payment_index pid = none
    ∧ (twoStepConfirm now pid provider func
        ⟨some (st1.delete sid), pend, cs ++ [args]⟩).1
      = FlowValue.envelope (build_error_response "Unknown or expired payment_id"
          (some "invalid_payment_id") (some pid) none)
    ∧ (twoStepConfirm now pid provider func
        ⟨some (st1.delete sid), pend, cs ++ [args]⟩).2.calls
      = cs ++ [args] := by
  subst hst1
  set v : PaymentState := ⟨sid, pid, url, tool, args, "requested", now, [], 0⟩
    with hv
  set st1 := s0.put now sid v with hst1
  set v2 : PaymentState := ⟨sid, pid, url, tool, args, "requested", now, [],
    now⟩ with hv2
  have hput_self : alookup st1.store sid = some v2 :=
    InMemoryStore.put_store_self s0 now sid v
  have hidx : alookup st1.payment_index pid = some sid :=
    InMemoryStore.put_index_self s0 now sid v hpid
  have hlc1 : now - st1.last_cleanup < cleanupInterval :=
    InMemoryStore.put_lc_lt s0 now sid v
  have hclean1 : InMemoryStore.cleanupIfNeeded now st1 = st1 :=
    InMemoryStore.cleanup_skip now st1 hlc1
  have hget1 : st1.get now sid = (some v2, st1) := by
    have := InMemoryStore.get_fresh_of_lookup st1 now sid v2
      (by rw [hclean1]; exact hput_self)
      (by rw [hclean1]; show ¬ now - now > st1.ttl_seconds; omega)
    rwa [hclean1] at this
  have hgbp1 : st1.getByPaymentId now pid = (some v2, st1) := by
    unfold InMemoryStore.getByPaymentId
    rw [hidx]
    exact hget1
  have hret1 : retrieve_stored_args now pid (some st1) pend
      = ((some args, some sid), some st1) := by
    simp only [retrieve_stored_args, hgbp1]
    simp [hsid]
  have hconf1 : twoStepConfirm now pid provider func ⟨some st1, pend, cs⟩
      = (build_success_response (call_original_tool func args) (some pid),
         ⟨some (st1.delete sid), pend, cs ++ [args]⟩) := by
    simp only [twoStepConfirm, hret1, hpaid now]
    simp [cleanup_payment_args, truthy, hsid, cleanup_payment_state,
      InMemoryStore.delete]
  have hst2store : alookup (st1.delete sid).store sid = none :=
    InMemoryStore.deleteWithIndex_store_self st1 sid
  have hst2idx : alookup (st1.delete sid).payment_index pid = none :=
    InMemoryStore.deleteWithIndex_index_self st1 sid v2 hput_self hpid
  have hst2lc : now - (st1.delete sid).last_cleanup < cleanupInterval := by
    rw [InMemoryStore.delete, InMemoryStore.deleteWithIndex_lc]
    exact hlc1
  have hclean2 : InMemoryStore.cleanupIfNeeded now (st1.delete sid)
      = st1.delete sid := InMemoryStore.cleanup_skip now _ hst2lc
  have hst2pid : alookup (st1.delete sid).store pid = none := by
    by_cases hps : pid = sid
    · rw [hps]; exact hst2store
    · rw [InMemoryStore.delete, InMemoryStore.deleteWithIndex_store_ne st1 sid
        pid hps]
      rw [hst1, InMemoryStore.put_store_ne s0 now sid pid v hps]
      exact InMemoryStore.cleanup_store_none now s0 pid hs0
  have hget2 : (st1.delete sid).get now pid = (none, st1.delete sid) := by
    have := InMemoryStore.get_none_of_lookup (st1.delete sid) now pid
      (by rw [hclean2]; exact hst2pid)
    rwa [hclean2] at this
  have hgbp2 : (st1.delete sid).getByPaymentId now pid
      = (none, st1.delete sid) := by
    unfold InMemoryStore.getByPaymentId
    rw [hst2idx]
  have hret2 : retrieve_stored_args now pid (some (st1.delete sid)) pend
      = ((none, none), some (st1.delete sid)) := by
    simp only [retrieve_stored_args, hgbp2, hget2, hpend]
  have hconf2 : twoStepConfirm now pid provider func
      ⟨some (st1.delete sid), pend, cs ++ [args]⟩
      = (FlowValue.envelope (build_error_response
          "Unknown or expired payment_id" (some "invalid_payment_id")
          (some pid) none),
         ⟨some (st1.delete sid), pend, cs ++ [args]⟩) := by
    simp only [twoStepConfirm, hret2]
  refine ⟨?_, ?_, ?_, hst2store, hst2idx, ?_, ?_⟩
  · simp [store_payment_args, save_payment_state, hsid]
  · rw [hconf1]
  · rw [hconf1]
  · rw [hconf2]
  · rw [hconf2]

/-- Closed instance of C2 at concrete values. -/
theorem C2_two_step_duplicate_confirm_witness :
    (twoStepConfirm 0 "P" (fun _ _ => Except.ok "paid")
        (fun _ => ToolResult.raw "ok")
        ⟨some ((InMemoryStore.init 3600 0).put 0 "S"
          ⟨"S", "P", "U", "t", [("a", "1")], "requested", 0, [], 0⟩), [],
          []⟩).1
      = build_success_response
          (call_original_tool (fun _ => ToolResult.raw "ok") [("a", "1")])
          (some "P")
    ∧ (twoStepConfirm 0 "P" (fun _ _ => Except.ok "paid")
        (fun _ => ToolResult.raw "ok")
        ⟨some (((InMemoryStore.init 3600 0).put 0 "S"
          ⟨"S", "P", "U", "t", [("a", "1")], "requested", 0, [], 0⟩).delete
            "S"), [], [[("a", "1")]]⟩).1
      = FlowValue.envelope (build_error_response "Unknown or expired payment_id"
          (some "invalid_payment_id") (some "P") none) := by
  have h := C2_two_step_duplicate_confirm 0 "S" "P" "U" "t" [("a", "1")]
    (fun _ _ => Except.ok "paid") (fun _ => ToolResult.raw "ok")
    (InMemoryStore.init 3600 0) [] []
    ((InMemoryStore.init 3600 0).put 0 "S"
      ⟨"S", "P", "U", "t", [("a", "1")], "requested", 0, [], 0⟩)
    (by decide) (by decide) (by decide) (by decide) (fun _ => rfl) rfl
  exact ⟨h.2.1, by simpa using h.2.2.2.2.2.1⟩

/-! ### Claims C3 and C4 — progress flow: timeout and the abort signal -/

/-- When every poll reports a non-terminal status, the polling loop runs its
budget down and ends in the timeout branch (status set to `timeout`, state
retained, `RuntimeError` raised). -/
theorem progressLoop_nonterminal (provider : Provider) (pid : String)
    (session : Option String) (t0 : Nat)
    (hnt : ∀ n, ∃ stx, provider n pid = Except.ok stx ∧ stx ≠ "paid"
      ∧ stx ≠ "canceled" ∧ stx ≠ "expired" ∧ stx ≠ "failed") :
    ∀ (k waited : Nat) (store : Option InMemoryStore),
      progressLoop provider pid session t0 k waited store
        = progressTimeoutFinish (t0 + (waited + DEFAULT_POLL_SECONDS * k))
            session store := by
  intro k
  induction k with
  | zero =>
    intro waited store
    simp [progressLoop]
  | succ n ih =>
    intro waited store
    obtain ⟨stx, hok, h1, h2, h3, h4⟩ :=
      hnt (t0 + (waited + DEFAULT_POLL_SECONDS))
    have harith : waited + DEFAULT_POLL_SECONDS + DEFAULT_POLL_SECONDS * n
        = waited + DEFAULT_POLL_SECONDS * (n + 1) := by
      simp [DEFAULT_POLL_SECONDS]
      ring
    simp only [progressLoop, hok]
    simp [h1, h2, h3, h4, ih, harith]

/-- C3 (amended): a progress-flow invocation in which the provider never
reports a terminal status within the `max_wait` budget (15 minutes, 300
polls) sets the stored state's status to `timeout`, retains the state in the
store, does not invoke the underlying tool — but it raises
`RuntimeError("Payment timeout reached; aborting")`, which escapes to the
caller, instead of returning an `error(reason="timeout")` envelope. -/
theorem C3_progress_timeout_raises
    (t0 : Nat) (ctx : Option Ctx) (kwargs : Args) (provider : Provider)
    (pid url : String) (price : PriceInfo) (fn : String)
    (func : Args → ToolResult) (webview : String → Bool)
    (s0 s0c : InMemoryStore) (cs : List Args) (sid : String)
    (hctx : progressSessionId ctx = some sid)
    (hsid : sid ≠ "")
    (hs0c : s0c = InMemoryStore.cleanupIfNeeded t0 s0)
    (hfresh : alookup s0c.store sid = none)
    (httl : MAX_WAIT_SECONDS ≤ s0.ttl_seconds)
    (hnt : ∀ n, ∃ stx, provider n pid = Except.ok stx ∧ stx ≠ "paid"
      ∧ stx ≠ "canceled" ∧ stx ≠ "expired" ∧ stx ≠ "failed") :
    let res := progressWrapper t0 ctx kwargs provider (pid, url) price fn
      func webview ⟨some s0, cs⟩
    res.1 = ProgressOutcome.raised "Payment timeout reached; aborting"
    ∧ res.2.calls = cs
    ∧ (∃ stF, res.2.state_store = some stF
        ∧ alookup stF.store sid
          = some ⟨sid, pid, url, fn, kwargs, "timeout", t0, [],
              t0 + MAX_WAIT_SECONDS⟩) := by
  have hget0 : s0.get t0 sid = (none, s0c) := by
    rw [hs0c]
    exact InMemoryStore.get_none_of_lookup s0 t0 sid (by rw [← hs0c]; exact hfresh)
  have hput : alookup ((s0c.put t0 sid
      ⟨sid, pid, url, fn, kwargs, "requested", t0, [], 0⟩)).store sid
      = some ⟨sid, pid, url, fn, kwargs, "requested", t0, [], t0⟩ := by
    simpa using InMemoryStore.put_store_self s0c t0 sid
      ⟨sid, pid, url, fn, kwargs, "requested", t0, [], 0⟩
  have httl2 : ((s0c.put t0 sid
      ⟨sid, pid, url, fn, kwargs, "requested", t0, [], 0⟩)).ttl_seconds
      = s0.ttl_seconds := by
    rw [InMemoryStore.put_ttl, hs0c, InMemoryStore.cleanup_ttl]
  have hbind : ∀ w, (sid, w) ∈ ((s0c.put t0 sid
      ⟨sid, pid, url, fn, kwargs, "requested", t0, [], 0⟩)).store →
      ¬ (t0 + MAX_WAIT_SECONDS) - w.timestamp > ((s0c.put t0 sid
        ⟨sid, pid, url, fn, kwargs, "requested", t0, [], 0⟩)).ttl_seconds := by
    intro w hw
    have hwv := InMemoryStore.put_store_bindings s0c t0 sid
      ⟨sid, pid, url, fn, kwargs, "requested", t0, [], 0⟩ w hw
    subst hwv
    rw [httl2]
    show ¬ (t0 + MAX_WAIT_SECONDS) - t0 > s0.ttl_seconds
    omega
  have hlook := InMemoryStore.cleanup_store_unexpired (t0 + MAX_WAIT_SECONDS)
    (s0c.put t0 sid ⟨sid, pid, url, fn, kwargs, "requested", t0, [], 0⟩) sid
    ⟨sid, pid, url, fn, kwargs, "requested", t0, [], t0⟩ hput hbind
  have hgetT : ((s0c.put t0 sid
      ⟨sid, pid, url, fn, kwargs, "requested", t0, [], 0⟩)).get
        (t0 + MAX_WAIT_SECONDS) sid
      = (some ⟨sid, pid, url, fn, kwargs, "requested", t0, [], t0⟩,
         InMemoryStore.cleanupIfNeeded (t0 + MAX_WAIT_SECONDS)
           (s0c.put t0 sid
             ⟨sid, pid, url, fn, kwargs, "requested", t0, [], 0⟩)) := by
    refine InMemoryStore.get_fresh_of_lookup _ (t0 + MAX_WAIT_SECONDS) sid _
      hlook ?_
    rw [InMemoryStore.cleanup_ttl, httl2]
    show ¬ (t0 + MAX_WAIT_SECONDS) - t0 > s0.ttl_seconds
    omega
  have hfinish : progressTimeoutFinish (t0 + MAX_WAIT_SECONDS) (some sid)
      (some (s0c.put t0 sid
        ⟨sid, pid, url, fn, kwargs, "requested", t0, [], 0⟩))
      = (ProgressLoopExit.raised "Payment timeout reached; aborting",
         some ((InMemoryStore.cleanupIfNeeded (t0 + MAX_WAIT_SECONDS)
             (s0c.put t0 sid
               ⟨sid, pid, url, fn, kwargs, "requested", t0, [], 0⟩)).put
           (t0 + MAX_WAIT_SECONDS) sid
           ⟨sid, pid, url, fn, kwargs, "timeout", t0, [], t0⟩)) := by
    simp only [progressTimeoutFinish]
    rw [if_neg hsid]
    simp only [hgetT]
  have hloop : progressLoop provider pid (some sid) t0
      (MAX_WAIT_SECONDS / DEFAULT_POLL_SECONDS) 0
      (some (s0c.put t0 sid
        ⟨sid, pid, url, fn, kwargs, "requested", t0, [], 0⟩))
      = progressTimeoutFinish (t0 + MAX_WAIT_SECONDS) (some sid)
        (some (s0c.put t0 sid
          ⟨sid, pid, url, fn, kwargs, "requested", t0, [], 0⟩)) := by
    rw [progressLoop_nonterminal provider pid (some sid) t0 hnt]
    norm_num [DEFAULT_POLL_SECONDS, MAX_WAIT_SECONDS]
  have hstoreF : alookup
      (((InMemoryStore.cleanupIfNeeded (t0 + MAX_WAIT_SECONDS)
          (s0c.put t0 sid
            ⟨sid, pid, url, fn, kwargs, "requested", t0, [], 0⟩)).put
        (t0 + MAX_WAIT_SECONDS) sid
        ⟨sid, pid, url, fn, kwargs, "timeout", t0, [], t0⟩)).store sid
      = some ⟨sid, pid, url, fn, kwargs, "timeout", t0, [],
          t0 + MAX_WAIT_SECONDS⟩ := by
    simpa using InMemoryStore.put_store_self
      (InMemoryStore.cleanupIfNeeded (t0 + MAX_WAIT_SECONDS)
        (s0c.put t0 sid ⟨sid, pid, url, fn, kwargs, "requested", t0, [], 0⟩))
      (t0 + MAX_WAIT_SECONDS) sid
      ⟨sid, pid, url, fn, kwargs, "timeout", t0, [], t0⟩
  have hw : progressWrapper t0 ctx kwargs provider (pid, url) price fn func
      webview ⟨some s0, cs⟩
      = (ProgressOutcome.raised "Payment timeout reached; aborting",
         ⟨some ((InMemoryStore.cleanupIfNeeded (t0 + MAX_WAIT_SECONDS)
             (s0c.put t0 sid
               ⟨sid, pid, url, fn, kwargs, "requested", t0, [], 0⟩)).put
           (t0 + MAX_WAIT_SECONDS) sid
           ⟨sid, pid, url, fn, kwargs, "timeout", t0, [], t0⟩),
          cs⟩) := by
    simp only [progressWrapper, hctx]
    rw [if_neg hsid]
    simp only [hget0]
    simp only [if_true]
    simp only [if_neg hsid]
    simp only [hloop, hfinish]
  rw [hw]
  exact ⟨rfl, rfl, _, rfl, hstoreF⟩

/-- Closed instance of C3 (amended): with the provider stuck on `pending`,
the wrapper raises and the state survives with status `timeout`. -/
theorem C3_progress_timeout_raises_witness :
    (progressWrapper 0 (some ⟨none, some ⟨some "S", none⟩, none, none, none⟩)
      [("p", "x")] (fun _ _ => Except.ok "pending") ("P", "U")
      ⟨"2.50", "USD"⟩ "gen" (fun _ => ToolResult.raw "r") (fun _ => false)
      ⟨some (InMemoryStore.init 3600 0), []⟩).1
    = ProgressOutcome.raised "Payment timeout reached; aborting" := by
  have h := C3_progress_timeout_raises 0
    (some ⟨none, some ⟨some "S", none⟩, none, none, none⟩) [("p", "x")]
    (fun _ _ => Except.ok "pending") "P" "U" ⟨"2.50", "USD"⟩ "gen"
    (fun _ => ToolResult.raw "r") (fun _ => false)
    (InMemoryStore.init 3600 0) (InMemoryStore.init 3600 0) [] "S"
    rfl (by decide) (by decide) (by decide) (by decide)
    (fun _ => ⟨"pending", rfl, by decide, by decide, by decide, by decide⟩)
  exact h.1

/-- C3 counterexample: at a concrete input where the provider never leaves
`pending`, the progress wrapper's outcome is an escaping
`RuntimeError("Payment timeout reached; aborting")` — one of the two
constructors of `ProgressOutcome`, disjoint from every returned value — so no
`error(reason="timeout")` envelope is returned, contrary to the claim. -/
theorem C3_counterexample :
    (progressWrapper 0 (some ⟨none, some ⟨some "S", none⟩, none, none, none⟩)
      [("p", "x")] (fun _ _ => Except.ok "pending") ("P", "U")
      ⟨"2.50", "USD"⟩ "gen" (fun _ => ToolResult.raw "r") (fun _ => false)
      ⟨some (InMemoryStore.init 3600 0), []⟩).1
    = ProgressOutcome.raised "Payment timeout reached; aborting"
    ∧ (∀ r : ToolResult,
        (progressWrapper 0
          (some ⟨none, some ⟨some "S", none⟩, none, none, none⟩)
          [("p", "x")] (fun _ _ => Except.ok "pending") ("P", "U")
          ⟨"2.50", "USD"⟩ "gen" (fun _ => ToolResult.raw "r") (fun _ => false)
          ⟨some (InMemoryStore.init 3600 0), []⟩).1 ≠ ProgressOutcome.ok r) := by
  have h := C3_progress_timeout_raises_witness
  refine ⟨h, fun r hc => ?_⟩
  rw [h] at hc
  cases hc

/-- The progress wrapper reads the context only through its inlined
session-id extraction; in particular it never consults the abort signal. -/
theorem progressWrapper_reads_only_session
    (t0 : Nat) (c1 c2 : Option Ctx) (kwargs : Args) (provider : Provider)
    (create_payment : String × String) (price : PriceInfo) (fn : String)
    (func : Args → ToolResult) (webview : String → Bool) (w : ProgressWorld)
    (h : progressSessionId c1 = progressSessionId c2) :
    progressWrapper t0 c1 kwargs provider create_payment price fn func
      webview w
    = progressWrapper t0 c2 kwargs provider create_payment price fn func
      webview w := by
  unfold progressWrapper
  rw [h]

/-- C4: the progress wrapper does NOT check the abort signal between polls.
At a concrete input whose context has `ctx.signal.aborted = True` (so
`is_client_aborted` returns true) and whose provider stays `pending`, the
wrapper keeps polling to the timeout: it raises instead of returning a
canceled envelope, and the session's state is retained (status `timeout`),
not deleted.  Moreover the wrapper's result is entirely independent of the
abort flag. -/
theorem C4_progress_ignores_abort_signal :
    is_client_aborted
      (some ⟨none, some ⟨some "S", none⟩, none, none, some true⟩) = true
    ∧ (progressWrapper 0
        (some ⟨none, some ⟨some "S", none⟩, none, none, some true⟩)
        [("p", "x")] (fun _ _ => Except.ok "pending") ("P", "U")
        ⟨"2.50", "USD"⟩ "gen" (fun _ => ToolResult.raw "r") (fun _ => false)
        ⟨some (InMemoryStore.init 3600 0), []⟩).1
      = ProgressOutcome.raised "Payment timeout reached; aborting"
    ∧ (∃ stF, (progressWrapper 0
        (some ⟨none, some ⟨some "S", none⟩, none, none, some true⟩)
        [("p", "x")] (fun _ _ => Except.ok "pending") ("P", "U")
        ⟨"2.50", "USD"⟩ "gen" (fun _ => ToolResult.raw "r") (fun _ => false)
        ⟨some (InMemoryStore.init 3600 0), []⟩).2.state_store = some stF
        ∧ alookup stF.store "S"
          = some ⟨"S", "P", "U", "gen", [("p", "x")], "timeout", 0, [],
              MAX_WAIT_SECONDS⟩)
    ∧ (∀ (msid : Option String) (sess : Option SessionObj)
        (meta : Option (List (String × String))) (rid : Option String)
        (b1 b2 : Option Bool) (t0 : Nat) (kwargs : Args)
        (provider : Provider) (cp : String × String) (price : PriceInfo)
        (fn : String) (func : Args → ToolResult) (webview : String → Bool)
        (w : ProgressWorld),
        progressWrapper t0 (some ⟨msid, sess, meta, rid, b1⟩) kwargs provider
          cp price fn func webview w
        = progressWrapper t0 (some ⟨msid, sess, meta, rid, b2⟩) kwargs
          provider cp price fn func webview w) := by
  have h := C3_progress_timeout_raises 0
    (some ⟨none, some ⟨some "S", none⟩, none, none, some true⟩) [("p", "x")]
    (fun _ _ => Except.ok "pending") "P" "U" ⟨"2.50", "USD"⟩ "gen"
    (fun _ => ToolResult.raw "r") (fun _ => false)
    (InMemoryStore.init 3600 0) (InMemoryStore.init 3600 0) [] "S"
    rfl (by decide) (by decide) (by decide) (by decide)
    (fun _ => ⟨"pending", rfl, by decide, by decide, by decide, by decide⟩)
  refine ⟨rfl, h.1, by simpa using h.2.2, ?_⟩
  intro msid sess meta rid b1 b2 t0 kwargs provider cp price fn func webview w
  exact progressWrapper_reads_only_session t0 _ _ kwargs provider cp price fn
    func webview w rfl

/-! ### Claim C6 — index consistency of the in-process store -/

theorem alookup_aerase_sub {α : Type} (l : List (String × α)) (x p : String)
    (k : α) (h : alookup (aerase l x) p = some k) : alookup l p = some k := by
  by_cases hp : p = x
  · subst hp
    rw [alookup_aerase_self] at h
    cases h
  · rwa [alookup_aerase_ne _ _ _ hp] at h

theorem deleteWithIndex_index_sub (s : InMemoryStore) (x p k : String)
    (h : alookup (InMemoryStore.deleteWithIndex s x).payment_index p = some k) :
    alookup s.payment_index p = some k := by
  unfold InMemoryStore.deleteWithIndex at h
  cases hl : alookup s.store x with
  | none => rw [hl] at h; exact h
  | some v =>
    rw [hl] at h
    simp only at h
    by_cases hb : v.payment_id ≠ "" ∧ (alookup s.payment_index v.payment_id).isSome
    · rw [if_pos hb] at h
      exact alookup_aerase_sub _ _ _ _ h
    · rwa [if_neg hb] at h

theorem foldDelete_index_sub (L : List String) (s : InMemoryStore)
    (p k : String)
    (h : alookup ((L.foldl InMemoryStore.deleteWithIndex s)).payment_index p
      = some k) :
    alookup s.payment_index p = some k := by
  induction L generalizing s with
  | nil => exact h
  | cons hd tl ih =>
    exact deleteWithIndex_index_sub s hd p k (ih _ h)

theorem cleanup_index_sub (now : Nat) (s : InMemoryStore) (p k : String)
    (h : alookup (InMemoryStore.cleanupIfNeeded now s).payment_index p
      = some k) : alookup s.payment_index p = some k := by
  unfold InMemoryStore.cleanupIfNeeded at h
  by_cases hc : now - s.last_cleanup < cleanupInterval
  · rwa [if_pos hc] at h
  · rw [if_neg hc] at h
    simp only at h
    exact foldDelete_index_sub _ { s with last_cleanup := now } _ _ h

theorem inv_init (ttl now : Nat) : Inv (InMemoryStore.init ttl now) := by
  constructor
  · intro k v h
    cases h
  · intro p k h
    cases h

theorem inv_deleteWithIndex (s : InMemoryStore) (x : String) (h : Inv s) :
    Inv (InMemoryStore.deleteWithIndex s x) := by
  obtain ⟨h1, h2⟩ := h
  unfold InMemoryStore.deleteWithIndex
  cases hl : alookup s.store x with
  | none => exact ⟨h1, h2⟩
  | some v =>
    simp only
    constructor
    · intro k2 w hw
      have hne : k2 ≠ x := by
        intro he
        subst he
        rw [alookup_aerase_self] at hw
        cases hw
      rw [alookup_aerase_ne _ _ _ hne] at hw
      obtain ⟨hpid, hidx⟩ := h1 k2 w hw
      refine ⟨hpid, ?_⟩
      by_cases hb : v.payment_id ≠ "" ∧
          (alookup s.payment_index v.payment_id).isSome
      · rw [if_pos hb]
        have hvw : w.payment_id ≠ v.payment_id := by
          intro he
          have hx := (h1 x v hl).2
          rw [he] at hidx
          rw [hx] at hidx
          exact hne (Option.some.inj hidx).symm
        rw [alookup_aerase_ne _ _ _ hvw]
        exact hidx
      · rw [if_neg hb]
        exact hidx
    · intro p k2 hk2
      by_cases hb : v.payment_id ≠ "" ∧
          (alookup s.payment_index v.payment_id).isSome
      · rw [if_pos hb] at hk2
        have hpv : p ≠ v.payment_id := by
          intro he
          subst he
          rw [alookup_aerase_self] at hk2
          cases hk2
        have hk2s : alookup s.payment_index p = some k2 :=
          alookup_aerase_sub _ _ _ _ hk2
        obtain ⟨w, hws, hwp⟩ := h2 p k2 hk2s
        have hk2x : k2 ≠ x := by
          intro he
          rw [he, hl] at hws
          have hwv := Option.some.inj hws
          rw [← hwv] at hwp
          exact hpv hwp.symm
        refine ⟨w, ?_, hwp⟩
        rw [alookup_aerase_ne _ _ _ hk2x]
        exact hws
      · rw [if_neg hb] at hk2
        obtain ⟨w, hws, hwp⟩ := h2 p k2 hk2
        have hk2x : k2 ≠ x := by
          intro he
          rw [he, hl] at hws
          have hwv := Option.some.inj hws
          refine hb ⟨(h1 x v hl).1, ?_⟩
          rw [hwv, hwp, hk2]
          rfl
        refine ⟨w, ?_, hwp⟩
        rw [alookup_aerase_ne _ _ _ hk2x]
        exact hws

theorem inv_foldDelete (L : List String) (s : InMemoryStore) (h : Inv s) :
    Inv (L.foldl InMemoryStore.deleteWithIndex s) := by
  induction L generalizing s with
  | nil => exact h
  | cons hd tl ih => exact ih _ (inv_deleteWithIndex s hd h)

theorem inv_lastCleanup (s : InMemoryStore) (now : Nat) (h : Inv s) :
    Inv { s with last_cleanup := now } := h

theorem inv_cleanup (now : Nat) (s : InMemoryStore) (h : Inv s) :
    Inv (InMemoryStore.cleanupIfNeeded now s) := by
  unfold InMemoryStore.cleanupIfNeeded
  by_cases hc : now - s.last_cleanup < cleanupInterval
  · rwa [if_pos hc]
  · rw [if_neg hc]
    exact inv_foldDelete _ _ (inv_lastCleanup s now h)

theorem inv_put (s : InMemoryStore) (now : Nat) (key : String)
    (v : PaymentState) (h : Inv s) (hpid : v.payment_id ≠ "")
    (hguard : ∀ k2, alookup s.payment_index v.payment_id = some k2 →
      k2 = key) :
    Inv (s.put now key v) := by
  have h1all := inv_cleanup now s h
  obtain ⟨h1, h2⟩ := h1all
  have hguard1 : ∀ k2, alookup
      (InMemoryStore.cleanupIfNeeded now s).payment_index v.payment_id
      = some k2 → k2 = key := by
    intro k2 hk2
    exact hguard k2 (cleanup_index_sub now s _ k2 hk2)
  unfold InMemoryStore.put
  simp only [hpid, if_true, ne_eq, not_false_eq_true]
  constructor
  · intro k2 w hw
    by_cases hk : k2 = key
    · subst hk
      rw [alookup_ainsert_self] at hw
      have hwv := Option.some.inj hw
      subst hwv
      refine ⟨by simpa using hpid, ?_⟩
      simpa using alookup_ainsert_self _ v.payment_id k2
    · rw [alookup_ainsert_ne _ _ _ _ hk] at hw
      obtain ⟨hwpid, hwidx⟩ := h1 k2 w hw
      refine ⟨hwpid, ?_⟩
      have hwv : w.payment_id ≠ v.payment_id := by
        intro he
        rw [he] at hwidx
        exact hk (hguard1 k2 hwidx)
      rw [show ({ v with timestamp := now } : PaymentState).payment_id
        = v.payment_id from rfl]
      rw [alookup_ainsert_ne _ _ _ _ hwv]
      cases hl : alookup (InMemoryStore.cleanupIfNeeded now s).store key with
      | none => simp only [hl]; exact hwidx
      | some old =>
        simp only [hl]
        by_cases hb : old.payment_id ≠ "" ∧
            (alookup (InMemoryStore.cleanupIfNeeded now s).payment_index
              old.payment_id).isSome
        · rw [if_pos hb]
          have hwo : w.payment_id ≠ old.payment_id := by
            intro he
            have hx := (h1 key old hl).2
            rw [he] at hwidx
            rw [hx] at hwidx
            exact hk (Option.some.inj hwidx).symm
          rw [alookup_aerase_ne _ _ _ hwo]
          exact hwidx
        · rw [if_neg hb]
          exact hwidx
  · intro p k2 hk2
    by_cases hp : p = ({ v with timestamp := now } : PaymentState).payment_id
    · have hp2 : p = v.payment_id := hp
      subst hp2
      rw [alookup_ainsert_self] at hk2
      have hkk := Option.some.inj hk2
      subst hkk
      refine ⟨{ v with timestamp := now }, ?_, rfl⟩
      exact alookup_ainsert_self _ _ _
    · rw [alookup_ainsert_ne _ _ _ _ hp] at hk2
      have hp3 : p ≠ v.payment_id := hp
      cases hl : alookup (InMemoryStore.cleanupIfNeeded now s).store key with
      | none =>
        simp only [hl] at hk2 ⊢
        obtain ⟨w, hws, hwp⟩ := h2 p k2 hk2
        have hk2key : k2 ≠ key := by
          intro he
          rw [he, hl] at hws
          cases hws
        refine ⟨w, ?_, hwp⟩
        rw [alookup_ainsert_ne _ _ _ _ hk2key]
        exact hws
      | some old =>
        simp only [hl] at hk2 ⊢
        by_cases hb : old.payment_id ≠ "" ∧
            (alookup (InMemoryStore.cleanupIfNeeded now s).payment_index
              old.payment_id).isSome
        · rw [if_pos hb] at hk2
          have hpo : p ≠ old.payment_id := by
            intro he
            rw [he, alookup_aerase_self] at hk2
            cases hk2
          have hk2s : alookup
              (InMemoryStore.cleanupIfNeeded now s).payment_index p
              = some k2 := alookup_aerase_sub _ _ _ _ hk2
          obtain ⟨w, hws, hwp⟩ := h2 p k2 hk2s
          have hk2key : k2 ≠ key := by
            intro he
            rw [he, hl] at hws
            have hwv := Option.some.inj hws
            apply hpo
            rw [hwv]
            exact hwp.symm
          refine ⟨w, ?_, hwp⟩
          rw [alookup_ainsert_ne _ _ _ _ hk2key]
          exact hws
        · rw [if_neg hb] at hk2
          obtain ⟨w, hws, hwp⟩ := h2 p k2 hk2
          have hk2key : k2 ≠ key := by
            intro he
            rw [he, hl] at hws
            have hwv := Option.some.inj hws
            refine hb ⟨(h1 key old hl).1, ?_⟩
            rw [hwv, hwp, hk2]
            rfl
          refine ⟨w, ?_, hwp⟩
          rw [alookup_ainsert_ne _ _ _ _ hk2key]
          exact hws

theorem inv_get (s : InMemoryStore) (now : Nat) (k : String) (h : Inv s) :
    Inv ((s.get now k).2) := by
  unfold InMemoryStore.get
  cases hl : alookup (InMemoryStore.cleanupIfNeeded now s).store k with
  | none =>
    simp only [hl]
    exact inv_cleanup now s h
  | some v =>
    simp only [hl]
    by_cases he : now - v.timestamp >
        (InMemoryStore.cleanupIfNeeded now s).ttl_seconds
    · rw [if_pos he]
      exact inv_deleteWithIndex _ k (inv_cleanup now s h)
    · rw [if_neg he]
      exact inv_cleanup now s h

theorem inv_getByPaymentId (s : InMemoryStore) (now : Nat) (pid : String)
    (h : Inv s) : Inv ((s.getByPaymentId now pid).2) := by
  unfold InMemoryStore.getByPaymentId
  cases hl : alookup s.payment_index pid with
  | none => exact h
  | some key =>
    simp only
    exact inv_get s now key h

/-- The index-consistency invariant holds in every state reachable under the
freshness discipline. -/
theorem reachableG_inv (s : InMemoryStore) (h : ReachableG s) : Inv s := by
  induction h with
  | init ttl now => exact inv_init ttl now
  | step s op hre hg ih =>
    cases op with
    | putOp now key v => exact inv_put s now key v ih hg.1 hg.2
    | getOp now key => exact inv_get s now key ih
    | getByPidOp now pid => exact inv_getByPaymentId s now pid ih
    | delOp key => exact inv_deleteWithIndex s key ih

theorem mem_aerase {α : Type} (l : List (String × α)) (x k : String) (v : α)
    (h : (k, v) ∈ aerase l x) : (k, v) ∈ l ∧ k ≠ x := by
  induction l with
  | nil => simp [aerase] at h
  | cons hd tl ih =>
    obtain ⟨k2, v2⟩ := hd
    by_cases hx : k2 = x
    · simp only [aerase, hx, if_pos rfl] at h
      obtain ⟨hm, hne⟩ := ih (by simpa [aerase, hx] using h)
      exact ⟨List.mem_cons_of_mem _ hm, hne⟩
    · rcases (by simpa [aerase, hx] using h :
          k = k2 ∧ v = v2 ∨ (k, v) ∈ aerase tl x) with ⟨hk, hv⟩ | htl
      · refine ⟨by simp [hk, hv], ?_⟩
        rw [hk]
        exact hx
      · obtain ⟨hm, hne⟩ := ih htl
        exact ⟨List.mem_cons_of_mem _ hm, hne⟩

theorem keysOnceL_aerase {α : Type} (l : List (String × α)) (x : String)
    (h : ∀ k v, (k, v) ∈ l → alookup l k = some v) :
    ∀ k v, (k, v) ∈ aerase l x → alookup (aerase l x) k = some v := by
  intro k v hm
  obtain ⟨hl, hne⟩ := mem_aerase l x k v hm
  rw [alookup_aerase_ne _ _ _ hne]
  exact h k v hl

theorem keysOnceL_ainsert {α : Type} (l : List (String × α)) (x : String)
    (w : α) (h : ∀ k v, (k, v) ∈ l → alookup l k = some v) :
    ∀ k v, (k, v) ∈ ainsert l x w → alookup (ainsert l x w) k = some v := by
  intro k v hm
  rcases List.mem_append.mp hm with hm1 | hm2
  · obtain ⟨hl, hne⟩ := mem_aerase l x k v hm1
    rw [alookup_ainsert_ne _ _ _ _ hne]
    exact h k v hl
  · have hkx : k = x ∧ v = w := by simpa using hm2
    obtain ⟨hk, hv⟩ := hkx
    subst hk
    subst hv
    exact alookup_ainsert_self _ _ _

theorem keysOnce_deleteWithIndex (s : InMemoryStore) (x : String)
    (h : KeysOnce s) : KeysOnce (InMemoryStore.deleteWithIndex s x) := by
  unfold InMemoryStore.deleteWithIndex
  cases hl : alookup s.store x with
  | none => exact h
  | some v =>
    intro k w hm
    exact keysOnceL_aerase s.store x h k w hm

theorem keysOnce_foldDelete (L : List String) (s : InMemoryStore)
    (h : KeysOnce s) : KeysOnce (L.foldl InMemoryStore.deleteWithIndex s) := by
  induction L generalizing s with
  | nil => exact h
  | cons hd tl ih => exact ih _ (keysOnce_deleteWithIndex s hd h)

theorem keysOnce_cleanup (now : Nat) (s : InMemoryStore) (h : KeysOnce s) :
    KeysOnce (InMemoryStore.cleanupIfNeeded now s) := by
  unfold InMemoryStore.cleanupIfNeeded
  by_cases hc : now - s.last_cleanup < cleanupInterval
  · rwa [if_pos hc]
  · rw [if_neg hc]
    exact keysOnce_foldDelete _ _ h

theorem keysOnce_put (s : InMemoryStore) (now : Nat) (key : String)
    (v : PaymentState) (h : KeysOnce s) : KeysOnce (s.put now key v) := by
  intro k w hm
  rw [InMemoryStore.put_store_eq] at hm ⊢
  exact keysOnceL_ainsert _ key _ (keysOnce_cleanup now s h) k w hm

theorem keysOnce_get (s : InMemoryStore) (now : Nat) (k : String)
    (h : KeysOnce s) : KeysOnce ((s.get now k).2) := by
  unfold InMemoryStore.get
  cases hl : alookup (InMemoryStore.cleanupIfNeeded now s).store k with
  | none =>
    simp only [hl]
    exact keysOnce_cleanup now s h
  | some v =>
    simp only [hl]
    by_cases he : now - v.timestamp >
        (InMemoryStore.cleanupIfNeeded now s).ttl_seconds
    · rw [if_pos he]
      exact keysOnce_deleteWithIndex _ k (keysOnce_cleanup now s h)
    · rw [if_neg he]
      exact keysOnce_cleanup now s h

theorem keysOnce_getByPaymentId (s : InMemoryStore) (now : Nat) (pid : String)
    (h : KeysOnce s) : KeysOnce ((s.getByPaymentId now pid).2) := by
  unfold InMemoryStore.getByPaymentId
  cases hl : alookup s.payment_index pid with
  | none => exact h
  | some key =>
    simp only
    exact keysOnce_get s now key h

theorem reachableG_keysOnce (s : InMemoryStore) (h : ReachableG s) :
    KeysOnce s := by
  induction h with
  | init ttl now =>
    intro k v hm
    cases hm
  | step s op hre hg ih =>
    cases op with
    | putOp now key v => exact keysOnce_put s now key v ih
    | getOp now key => exact keysOnce_get s now key ih
    | getByPidOp now pid => exact keysOnce_getByPaymentId s now pid ih
    | delOp key => exact keysOnce_deleteWithIndex s key ih

/-- C6 counterexample: under unrestricted operation sequences the claim
fails.  Two `put`s that store the same payment id `"A"` under the different
keys `"k1"` and `"k2"` reach a store in which the entry for `"k1"` is present
in the primary map (and unexpired), yet `GetByPaymentId("A")` returns the
entry of `"k2"` — a different entry — so the payment-id index and the primary
map disagree. -/
theorem C6_counterexample :
    ReachableAny (applyOp (applyOp (InMemoryStore.init 3600 0)
        (StoreOp.putOp 0 "k1" ⟨"k1", "A", "u1", "t", [], "requested", 0, [], 0⟩))
        (StoreOp.putOp 0 "k2" ⟨"k2", "A", "u2", "t", [], "requested", 0, [], 0⟩))
    ∧ alookup (applyOp (applyOp (InMemoryStore.init 3600 0)
        (StoreOp.putOp 0 "k1" ⟨"k1", "A", "u1", "t", [], "requested", 0, [], 0⟩))
        (StoreOp.putOp 0 "k2"
          ⟨"k2", "A", "u2", "t", [], "requested", 0, [], 0⟩)).store "k1"
      = some ⟨"k1", "A", "u1", "t", [], "requested", 0, [], 0⟩
    ∧ ((applyOp (applyOp (InMemoryStore.init 3600 0)
        (StoreOp.putOp 0 "k1" ⟨"k1", "A", "u1", "t", [], "requested", 0, [], 0⟩))
        (StoreOp.putOp 0 "k2"
          ⟨"k2", "A", "u2", "t", [], "requested", 0, [], 0⟩)).getByPaymentId
            0 "A").1
      = some ⟨"k2", "A", "u2", "t", [], "requested", 0, [], 0⟩
    ∧ (⟨"k2", "A", "u2", "t", [], "requested", 0, [], 0⟩ : PaymentState)
      ≠ ⟨"k1", "A", "u1", "t", [], "requested", 0, [], 0⟩ := by
  refine ⟨ReachableAny.step _ _ (ReachableAny.step _ _
    (ReachableAny.init 3600 0)), ?_, ?_, ?_⟩ <;> decide

/-- C6 (amended): in every store state reachable under the freshness
discipline — each `put` stores a non-empty payment id not currently indexed
to a different key — the payment-id index and the primary map agree: every
stored entry is indexed back to its own key, every index entry points at a
stored entry carrying that payment id, `GetByPaymentId(entry.payment_id)`
returns every unexpired stored entry itself, and after `Delete(key)` neither
`Get(key)` nor `GetByPaymentId` of the deleted entry's payment id returns
it. -/
theorem C6_index_consistency (s : InMemoryStore) (h : ReachableG s) :
    (∀ k v, alookup s.store k = some v →
        v.payment_id ≠ "" ∧ alookup s.payment_index v.payment_id = some k)
    ∧ (∀ p k, alookup s.payment_index p = some k →
        ∃ v, alookup s.store k = some v ∧ v.payment_id = p)
    ∧ (∀ now k v, alookup s.store k = some v →
        ¬ now - v.timestamp > s.ttl_seconds →
        (s.getByPaymentId now v.payment_id).1 = some v)
    ∧ (∀ now k v, alookup s.store k = some v →
        ((s.delete k).get now k).1 = none
        ∧ ((s.delete k).getByPaymentId now v.payment_id).1 = none) := by
  have hinv := reachableG_inv s h
  have hko := reachableG_keysOnce s h
  obtain ⟨h1, h2⟩ := hinv
  refine ⟨h1, h2, ?_, ?_⟩
  · intro now k v hl hfr
    have hidx := (h1 k v hl).2
    unfold InMemoryStore.getByPaymentId
    rw [hidx]
    have hbind : ∀ w, (k, w) ∈ s.store →
        ¬ now - w.timestamp > s.ttl_seconds := by
      intro w hw
      have := hko k w hw
      rw [hl] at this
      have hwv := Option.some.inj this
      rwa [← hwv]
    have hlook := InMemoryStore.cleanup_store_unexpired now s k v hl hbind
    have hget := InMemoryStore.get_fresh_of_lookup s now k v hlook
      (by rwa [InMemoryStore.cleanup_ttl])
    simp only [hidx, hget]
  · intro now k v hl
    have hpid := (h1 k v hl).1
    constructor
    · have hnone : alookup (s.delete k).store k = none :=
        InMemoryStore.deleteWithIndex_store_self s k
      have hget := InMemoryStore.get_none_of_lookup (s.delete k) now k
        (InMemoryStore.cleanup_store_none now _ k hnone)
      rw [hget]
    · have hidxnone : alookup (s.delete k).payment_index v.payment_id
          = none := InMemoryStore.deleteWithIndex_index_self s k v hl hpid
      unfold InMemoryStore.getByPaymentId
      simp only [hidxnone]

/-- Closed instance of C6 (amended) after one guarded `put`. -/
theorem C6_index_consistency_witness :
    ((applyOp (InMemoryStore.init 3600 0)
      (StoreOp.putOp 0 "S"
        ⟨"S", "A", "u1", "t", [], "requested", 0, [], 0⟩)).getByPaymentId
          0 "A").1
    = some ⟨"S", "A", "u1", "t", [], "requested", 0, [], 0⟩ := by
  have hre : ReachableG (applyOp (InMemoryStore.init 3600 0)
      (StoreOp.putOp 0 "S" ⟨"S", "A", "u1", "t", [], "requested", 0, [], 0⟩)) := by
    refine ReachableG.step _ _ (ReachableG.init 3600 0) ⟨by decide, ?_⟩
    intro k2 hk2
    simp [alookup, InMemoryStore.init] at hk2
  have h := C6_index_consistency _ hre
  have h3 := h.2.2.1 0 "S" ⟨"S", "A", "u1", "t", [], "requested", 0, [], 0⟩
    (by decide) (by decide)
  simpa using h3

end PayMCP
